import Mathlib

/-!
Verification of the rate-limit-aware HTTP dispatcher (`discord/http.py`).

The development shallowly embeds the source module:
* `Route` / `Route.make` / `Route.bucket` embed the `Route` class;
* `json_or_text`, `runAttempts`, `HTTPClient.request` embed the request
  coroutine as a pure function from a per-attempt response oracle to a
  result together with a trace of observable effects (lock acquisition,
  deferred releases, sleeps, global-flag transitions);
* `referer` embeds the header-creation `try`/`except` chain;
* `HTTPClient.static_login` embeds the login routine over an explicit
  credential state;
* `Sys`/`Step`/`Reach` give a small-step semantics for the per-bucket
  lock discipline (bucket locks, deferred-release timers, the global
  throttle flag) used by concurrent `request` calls.

Machine integers do not occur (Python integers are unbounded); times are
modelled as rationals.
-/

/-- Rendering of a single decimal digit, as Python's `str` renders the
digits of an integer. -/
def digitChar : Nat → Char
  | 0 => '0' | 1 => '1' | 2 => '2' | 3 => '3' | 4 => '4'
  | 5 => '5' | 6 => '6' | 7 => '7' | 8 => '8' | 9 => '9'
  | _ => '*'

/-- Python's `str` of a nonnegative integer: its decimal digits, most
significant first, with `0` rendered as `"0"`. -/
def natStr (n : Nat) : String :=
  if n = 0 then "0" else ⟨((Nat.digits 10 n).map digitChar).reverse⟩

/-- Python's `'{}'.format(x)` for an optional integer field: `None`
renders as the four-character string `"None"`, an integer as its decimal
digits. -/
def optRepr : Option Nat → String
  | none => "None"
  | some n => natStr n

/-- A guild object, as far as `http.py` looks at one: it has an `id`. -/
structure Guild where
  id : Nat
deriving DecidableEq, Repr

/-- A channel object, as far as `http.py` looks at one: it has an `id`
and possibly a `guild` attribute (absent/`None` is modelled as `none`). -/
structure Channel where
  id : Nat
  guild : Option Guild
deriving DecidableEq, Repr

/-- The `Route` object's fields after `Route.__init__` ran: the HTTP
method, the unresolved path template, the resolved URL, and the major
parameters (`channel`, `channel_id`, `guild_id`). -/
structure Route where
  method : String
  path : String
  url : String
  channel : Option Channel
  channel_id : Option Nat
  guild_id : Option Nat
deriving DecidableEq, Repr

/-- Base URL of the API, `Route.BASE`. -/
def Route.BASE : String := "https://discordapp.com/api/v7"

/-- Placeholder substitution standing for Python's `str.format` on the
URL template: each `"{name}"` occurrence is replaced by the rendered
value.  Values arrive pre-rendered (percent-encoding of string values is
folded into the rendering); no claim inspects the resolved URL beyond
`bucket` ignoring it. -/
def formatParams (template : String) (params : List (String × String)) : String :=
  params.foldl (fun acc kv => acc.replace ("\x7b" ++ kv.1 ++ "\x7d") kv.2) template

/-- Embedding of `Route.__init__`: the `try` block overwrites
`parameters['channel_id']` with `channel.id` when a `channel` parameter
was supplied (the bare `except` swallows the `AttributeError` when it was
not); the URL is the formatted template when any parameter is present;
the major parameters are read back from the parameter mapping. -/
def Route.make (method path : String) (channel : Option Channel)
    (channel_id guild_id : Option Nat) (others : List (String × String)) : Route :=
  let cid : Option Nat := match channel with
    | some c => some c.id
    | none => channel_id
  let params : List (String × String) :=
    (match channel with | some c => [("channel.id", natStr c.id)] | none => []) ++
    (match cid with | some n => [("channel_id", natStr n)] | none => []) ++
    (match guild_id with | some n => [("guild_id", natStr n)] | none => []) ++ others
  { method := method
    path := path
    url := if params.isEmpty then Route.BASE ++ path else formatParams (Route.BASE ++ path) params
    channel := channel
    channel_id := cid
    guild_id := guild_id }

/-- Embedding of the `Route.bucket` property:
`'{0.method}:{0.channel_id}:{0.guild_id}:{0.path}'.format(self)`. -/
def Route.bucket (r : Route) : String :=
  r.method ++ ":" ++ optRepr r.channel_id ++ ":" ++ optRepr r.guild_id ++ ":" ++ r.path

/-- The bucket key exactly as the spec words it: `"{method}:{channel_id
or empty}:{guild_id or empty}:{path_template}"`, an absent major
parameter contributing an empty segment.  Stated for comparison with
`Route.bucket`, which is derived from the source. -/
def specBucketKey (method : String) (channel_id guild_id : Option Nat) (path : String) : String :=
  method ++ ":" ++ (match channel_id with | none => "" | some n => natStr n) ++ ":" ++
    (match guild_id with | none => "" | some n => natStr n) ++ ":" ++ path

/-- A JSON value, as `json.loads` produces one. -/
inductive JsonV where
  | null
  | bool (b : Bool)
  | num (n : Int)
  | str (s : String)
  | arr (elems : List JsonV)
  | obj (fields : List (String × JsonV))
deriving Repr

/-- A decoded response body: either a parsed JSON value or raw text. -/
inductive Body where
  | json (v : JsonV)
  | text (s : String)
deriving Repr

/-- One HTTP response as `request` consumes it: the status code, the two
headers it reads, the body text, and `bodyJson`, the value `json.loads`
yields on that text (consulted only when the content type is JSON).
`resetDelay` is the number of seconds the server-provided reset-time
header denotes; `utils._parse_ratelimit_header` (a collaborator outside
this module) extracts it. -/
structure Response where
  status : Nat
  contentType : String
  xRatelimitRemaining : Option String
  resetDelay : ℚ
  bodyText : String
  bodyJson : JsonV

/-- Embedding of `json_or_text`: parse the body as JSON when the
`content-type` header equals `application/json`, else return the raw
text. -/
def json_or_text (r : Response) : Body :=
  if r.contentType = "application/json" then Body.json r.bodyJson else Body.text r.bodyText

/-- Modelled from the spec: `utils._parse_ratelimit_header` is not under
`src/`; per the spec it computes a release delay "from a server-provided
reset-time header".  The delay it would compute is carried by the
response as `resetDelay`. -/
def parse_ratelimit_header (r : Response) : ℚ := r.resetDelay

/-- Field lookup in a JSON object, as Python `dict` subscripting. -/
def jsonLookup : List (String × JsonV) → String → Option JsonV
  | [], _ => none
  | (k, v) :: t, key => if k = key then some v else jsonLookup t key

/-- Python truthiness of a JSON value, for `if is_global:`. -/
def jsonTruthy : JsonV → Bool
  | JsonV.null => false
  | JsonV.bool b => b
  | JsonV.num n => n != 0
  | JsonV.str s => s != ""
  | JsonV.arr l => !l.isEmpty
  | JsonV.obj l => !l.isEmpty

/-- Evaluation of `data['retry_after']` on a decoded body: defined when
the body is a JSON object carrying a numeric `retry_after` field;
anything else raises in Python. -/
def retryAfterMs : Body → Option Int
  | Body.json (JsonV.obj fields) =>
    match jsonLookup fields "retry_after" with
    | some (JsonV.num n) => some n
    | _ => none
  | _ => none

/-- Evaluation of `data.get('global', False)` followed by Python
truthiness. -/
def isGlobalBody : Body → Bool
  | Body.json (JsonV.obj fields) =>
    match jsonLookup fields "global" with
    | some v => jsonTruthy v
    | none => false
  | _ => false

/-- The result of one `self._session.request(...)` call: either an HTTP
response or a transport-level failure (the `aiohttp` exception). -/
inductive RawResult where
  | netFail
  | resp (r : Response)

/-- The errors a `request` call can terminate with.  The first three are
the typed errors the module raises (`Forbidden`, `NotFound`,
`HTTPException`), each carrying the response status and decoded body.
`transport` is the transport library's exception propagating unwrapped —
the module defines no wrapper for it.  `pyError` stands for a raw Python
error escaping (subscripting a malformed 429 body). -/
inductive ReqErr where
  | forbidden (status : Nat) (body : Body)
  | notFound (status : Nat) (body : Body)
  | httpException (status : Nat) (body : Body)
  | transport
  | pyError

/-- Observable effects of a `request` call, in order: waiting on the
global-throttle event, acquiring the bucket lock, firing attempt `i`
(recording what the session returned), deferring the lock release and
scheduling it after a delay (`maybe_lock.defer()` plus
`loop.call_later(delta, lock.release)`), sleeping, clearing/setting the
global event, and the immediate release performed by
`MaybeUnlock.__exit__` when release was never deferred. -/
inductive Ev where
  | waitGlobal
  | acquire (bucket : String)
  | attempt (i : Nat) (res : RawResult)
  | deferRelease (delta : ℚ)
  | sleep (secs : ℚ)
  | clearGlobal
  | setGlobal
  | releaseNow

/-- The bucket-exhaustion test of lines 178-179: the
`X-Ratelimit-Remaining` header equals `'0'` and the status is not 429. -/
def qualifies (r : Response) : Bool :=
  r.xRatelimitRemaining = some "0" && r.status != 429

/-- The deferred-release delay of lines 181-184: the caller-supplied
`header_bypass_delay` when one was given, else the parsed reset-time
header. -/
def deferDelta (hbd : Option ℚ) (r : Response) : ℚ :=
  match hbd with
  | none => parse_ratelimit_header r
  | some d => d

/-- The `MaybeUnlock._unlock` flag after one attempt: flipped to `False`
forever once an exhausted bucket deferred the release. -/
def unlockAfter (r : Response) (unlock : Bool) : Bool :=
  if qualifies r then false else unlock

/-- The defer effects of one attempt: when the exhaustion test fires,
`maybe_lock.defer()` runs and `lock.release` is scheduled `deferDelta`
seconds later. -/
def deferEvs (hbd : Option ℚ) (r : Response) : List Ev :=
  if qualifies r then [Ev.deferRelease (deferDelta hbd r)] else []

/-- The effects of the 429 branch (lines 196-218): clear the global
event when the body marks `global` truthy, sleep `retry_after/1000`
seconds, set the global event again. -/
def sleep429Evs (g : Bool) (secs : ℚ) : List Ev :=
  (if g then [Ev.clearGlobal] else []) ++ Ev.sleep secs :: (if g then [Ev.setGlobal] else [])

/-- Embedding of the `for tries in range(5)` loop of `HTTPClient.request`
(lines 170-236).  `raws` is the oracle giving each attempt's session
result; `fuel` is the number of attempts left (`5 - tries`); `unlock`
is `MaybeUnlock._unlock`.  The value is the result, the final `_unlock`
flag, and the trace of effects.  Control flow per attempt: a transport
failure propagates uncaught; otherwise the body is decoded once, the
exhaustion test may defer the release, a 2xx returns the data, a 429
sleeps `retry_after/1000` seconds (clearing and re-setting the global
event around the sleep when the body marks `global` truthy) and retries,
a 500/502 sleeps `1 + tries*2` seconds and retries, 403/404/other raise;
when the loop exhausts its five attempts it raises `HTTPException` with
the last response. -/
def runAttempts (hbd : Option ℚ) (raws : Nat → RawResult) :
    Nat → Nat → Bool → Except ReqErr Body × Bool × List Ev
  | _tries, 0, unlock => (Except.error ReqErr.pyError, unlock, [])
  | tries, fuel+1, unlock =>
    match raws tries with
    | RawResult.netFail =>
      (Except.error ReqErr.transport, unlock, [Ev.attempt tries RawResult.netFail])
    | RawResult.resp r =>
      let data := json_or_text r
      let unlock1 := unlockAfter r unlock
      let evs1 : List Ev := deferEvs hbd r
      let hd := Ev.attempt tries (RawResult.resp r)
      if 200 ≤ r.status ∧ r.status < 300 then
        (Except.ok data, unlock1, hd :: evs1)
      else if r.status = 429 then
        match retryAfterMs data with
        | none => (Except.error ReqErr.pyError, unlock1, hd :: evs1)
        | some ms =>
          let secs : ℚ := (ms : ℚ) / 1000
          let evs2 : List Ev := sleep429Evs (isGlobalBody data) secs
          if fuel = 0 then
            (Except.error (ReqErr.httpException r.status data), unlock1, hd :: (evs1 ++ evs2))
          else
            let rest := runAttempts hbd raws (tries+1) fuel unlock1
            (rest.1, rest.2.1, hd :: (evs1 ++ evs2 ++ rest.2.2))
      else if r.status = 500 ∨ r.status = 502 then
        let evs2 : List Ev := [Ev.sleep ((1 + tries * 2 : Nat) : ℚ)]
        if fuel = 0 then
          (Except.error (ReqErr.httpException r.status data), unlock1, hd :: (evs1 ++ evs2))
        else
          let rest := runAttempts hbd raws (tries+1) fuel unlock1
          (rest.1, rest.2.1, hd :: (evs1 ++ evs2 ++ rest.2.2))
      else if r.status = 403 then
        (Except.error (ReqErr.forbidden r.status data), unlock1, hd :: evs1)
      else if r.status = 404 then
        (Except.error (ReqErr.notFound r.status data), unlock1, hd :: evs1)
      else
        (Except.error (ReqErr.httpException r.status data), unlock1, hd :: evs1)

/-- Embedding of `HTTPClient.request`: wait on the global event when it
is not set (lines 164-166), acquire the bucket lock (line 168), run the
attempt loop with `MaybeUnlock`, and on exit release the lock exactly
when release was never deferred (lines 85-87). `globalSet` is whether
`self._global_over` is set on entry. -/
def HTTPClient.request (globalSet : Bool) (bucket : String) (hbd : Option ℚ)
    (raws : Nat → RawResult) : Except ReqErr Body × List Ev :=
  let pre : List Ev := (if globalSet then [] else [Ev.waitGlobal]) ++ [Ev.acquire bucket]
  let res := runAttempts hbd raws 0 5 true
  (res.1, pre ++ res.2.2 ++ (if res.2.1 then [Ev.releaseNow] else []))

/-- The channel-derived referer URL of line 124. -/
def refererChannelUrl (guildId channelId : Nat) : String :=
  "https://canary.discordapp.com/channels/" ++ natStr guildId ++ "/" ++ natStr channelId

/-- The fallback referer of line 137. -/
def refererFallback : String := "https://canary.discordapp.com/channels/@me"

/-- The first header branch (lines 121-126): it evaluates
`channel.guild.id` and `channel.id`, succeeding exactly when the route's
channel is present and carries a guild; otherwise the attribute access
raises and the bare `except` falls through. -/
def refererBranch1 : Option Channel → Option String
  | some c =>
    match c.guild with
    | some g => some (refererChannelUrl g.id c.id)
    | none => none
  | none => none

/-- The second header branch (lines 128-133): its f-string reads the
name `guild`, which is bound nowhere in `HTTPClient.request`, so
evaluating it raises `NameError` unconditionally and the inner bare
`except` falls through — this branch never produces a referer. -/
def refererBranch2 : Option String := none

/-- The referer header `HTTPClient.request` ends up with (lines
120-139): the first branch when it succeeds, else the second, else the
fallback. -/
def referer (channel : Option Channel) : String :=
  match refererBranch1 channel with
  | some u => u
  | none =>
    match refererBranch2 with
    | some u => u
    | none => refererFallback

/-- The credential state `static_login` manipulates: `self.token` and
`self.bot_token`. -/
structure ClientState where
  token : Option String
  bot_token : Bool
deriving DecidableEq, Repr

/-- Embedding of `HTTPClient._token`: overwrite the credential state
(the `_ack_token = None` side effect is outside every claim). -/
def HTTPClient._token (_st : ClientState) (token : Option String) (bot : Bool) : ClientState :=
  { token := token, bot_token := bot }

/-- Modelled from the spec: the error classes live in
`discord/errors.py`, which is not under `src/`.  Per the spec's taxonomy
(section 7), `Forbidden`, `NotFound` and the generic API error are the
HTTP-error kinds an `except HTTPException` handler catches; a transport
failure or a raw Python error is not an `HTTPException`. -/
def ReqErr.isHTTPException : ReqErr → Bool
  | ReqErr.forbidden .. => true
  | ReqErr.notFound .. => true
  | ReqErr.httpException .. => true
  | ReqErr.transport => false
  | ReqErr.pyError => false

/-- The `e.response.status` an error carries. -/
def ReqErr.statusOf : ReqErr → Option Nat
  | ReqErr.forbidden s _ => some s
  | ReqErr.notFound s _ => some s
  | ReqErr.httpException s _ => some s
  | ReqErr.transport => none
  | ReqErr.pyError => none

/-- What a `static_login` call ends with: the decoded payload, a
`LoginFailure`, or the re-raised inner error. -/
inductive LoginResult where
  | ok (data : Body)
  | loginFailure
  | reraised (e : ReqErr)

/-- Embedding of `HTTPClient.static_login` (lines 265-278): remember the
old credential, install the new one, issue `GET /users/@me`; an
`HTTPException` restores the old credential and becomes `LoginFailure`
when its status is 401, else is re-raised; any other exception
propagates with the handler never running. -/
def HTTPClient.static_login (st : ClientState) (token : String) (bot : Bool)
    (globalSet : Bool) (raws : Nat → RawResult) : LoginResult × ClientState :=
  let old_token := st.token
  let old_bot := st.bot_token
  let st1 := HTTPClient._token st (some token) bot
  let route := Route.make "GET" "/users/@me" none none none []
  match (HTTPClient.request globalSet route.bucket none raws).1 with
  | Except.ok data => (LoginResult.ok data, st1)
  | Except.error e =>
    if e.isHTTPException then
      let st2 := HTTPClient._token st1 old_token old_bot
      if e.statusOf = some 401 then (LoginResult.loginFailure, st2)
      else (LoginResult.reraised e, st2)
    else (LoginResult.reraised e, st1)

/-- Where one `request` call stands, for the concurrent small-step
semantics: before the global-event check, before `yield from lock`,
inside the attempt loop holding the lock (`tries` attempts begun,
`deferred` = `MaybeUnlock._unlock` flipped), or finished. -/
inductive Phase where
  | waitingGlobal
  | waitingLock
  | running (tries : Nat) (deferred : Bool)
  | done
deriving DecidableEq, Repr

/-- Process state for concurrent `request` calls: each task's bucket key
(fixed at creation, from its Route) and phase, one lock holder per
bucket key (`self._locks`), the pending `call_later` release timers, and
the `_global_over` event. -/
structure Sys where
  bucketOf : Nat → String
  phase : Nat → Phase
  holder : String → Option Nat
  timers : List String
  globalOver : Bool

/-- Pointwise update of a task phase. -/
def setP (f : Nat → Phase) (i : Nat) (p : Phase) : Nat → Phase :=
  fun j => if j = i then p else f j

/-- Pointwise update of a lock holder. -/
def setH (h : String → Option Nat) (b : String) (v : Option Nat) : String → Option Nat :=
  fun b' => if b' = b then v else h b'

/-- Small-step semantics of the lock discipline of `HTTPClient.request`.
A task passes the global gate only while `_global_over` is set; acquires
its bucket's lock only while free; finishing a call releases the lock
immediately when release was never deferred, schedules a timer when the
final attempt deferred, and does neither when an earlier attempt already
deferred; a retrying attempt (429/500/502) keeps the loop going, and —
when the response paired `X-Ratelimit-Remaining: 0` with a 500/502 — it
also defers and schedules the release timer while continuing (`retryDefer`,
enabled only when the parameter `d` is true so that the system without
this behaviour can be studied); a pending timer may fire at any moment,
releasing the lock; a running task may clear or set the global event
(the 429 `global: true` handling). -/
inductive Step (d : Bool) : Sys → Sys → Prop where
  | passGlobal (s : Sys) (i : Nat) :
      s.phase i = Phase.waitingGlobal → s.globalOver = true →
      Step d s { s with phase := setP s.phase i Phase.waitingLock }
  | acquire (s : Sys) (i : Nat) :
      s.phase i = Phase.waitingLock → s.holder (s.bucketOf i) = none →
      Step d s { s with phase := setP s.phase i (Phase.running 0 false),
                        holder := setH s.holder (s.bucketOf i) (some i) }
  | finishRelease (s : Sys) (i t : Nat) :
      s.phase i = Phase.running t false →
      Step d s { s with phase := setP s.phase i Phase.done,
                        holder := setH s.holder (s.bucketOf i) none }
  | finishDeferred (s : Sys) (i t : Nat) (dfr : Bool) :
      s.phase i = Phase.running t dfr →
      Step d s { s with phase := setP s.phase i Phase.done,
                        timers := s.bucketOf i :: s.timers }
  | finishNoRelease (s : Sys) (i t : Nat) :
      s.phase i = Phase.running t true →
      Step d s { s with phase := setP s.phase i Phase.done }
  | retryStep (s : Sys) (i t : Nat) (dfr : Bool) :
      s.phase i = Phase.running t dfr → t + 1 < 5 →
      Step d s { s with phase := setP s.phase i (Phase.running (t+1) dfr) }
  | retryDefer (s : Sys) (i t : Nat) (dfr : Bool) :
      d = true → s.phase i = Phase.running t dfr → t + 1 < 5 →
      Step d s { s with phase := setP s.phase i (Phase.running (t+1) true),
                        timers := s.bucketOf i :: s.timers }
  | timerFire (s : Sys) (b : String) :
      b ∈ s.timers →
      Step d s { s with holder := setH s.holder b none, timers := s.timers.erase b }
  | globalClear (s : Sys) (i t : Nat) (dfr : Bool) :
      s.phase i = Phase.running t dfr →
      Step d s { s with globalOver := false }
  | globalSet (s : Sys) (i t : Nat) (dfr : Bool) :
      s.phase i = Phase.running t dfr →
      Step d s { s with globalOver := true }

/-- Reachability in the small-step semantics. -/
inductive Reach (d : Bool) (s0 : Sys) : Sys → Prop where
  | refl : Reach d s0 s0
  | tail {s s' : Sys} : Reach d s0 s → Step d s s' → Reach d s0 s'

/-- Fresh process: every task ahead of the global gate, every lock free,
no pending timers. -/
def Sys.init (bucketOf : Nat → String) (g : Bool) : Sys :=
  { bucketOf := bucketOf, phase := fun _ => Phase.waitingGlobal,
    holder := fun _ => none, timers := [], globalOver := g }

/-- A task with an attempt in flight. -/
def InFlight (s : Sys) (i : Nat) : Prop :=
  ∃ t dfr, s.phase i = Phase.running t dfr

/-- Lock-discipline invariant: a running task holds its bucket's lock, a
pending timer's bucket has no running task and a non-free lock, and
timers are pairwise distinct. -/
def LockInv (s : Sys) : Prop :=
  (∀ i t dfr, s.phase i = Phase.running t dfr → s.holder (s.bucketOf i) = some i) ∧
  (∀ b, b ∈ s.timers → ∀ i t dfr, s.phase i = Phase.running t dfr → s.bucketOf i ≠ b) ∧
  (∀ b, b ∈ s.timers → s.holder b ≠ none) ∧
  s.timers.Nodup

/-- Bundle of loop facts proven by one induction: every attempt event in
the trace has index in `[tries, tries+fuel)`; a cleared `_unlock` flag
stays cleared; an executed attempt whose response passes the exhaustion
test puts a `deferRelease` event with its delay in the trace and clears
the final `_unlock` flag; and when no executed attempt passes the test
the final `_unlock` flag equals the initial one. -/
def RunProps (hbd : Option ℚ) (raws : Nat → RawResult) (fuel tries : Nat) (unlock : Bool) : Prop :=
  (∀ j x, Ev.attempt j x ∈ (runAttempts hbd raws tries fuel unlock).2.2 →
    tries ≤ j ∧ j < tries + fuel) ∧
  (unlock = false → (runAttempts hbd raws tries fuel unlock).2.1 = false) ∧
  (∀ i r, Ev.attempt i (RawResult.resp r) ∈ (runAttempts hbd raws tries fuel unlock).2.2 →
    qualifies r = true →
    Ev.deferRelease (deferDelta hbd r) ∈ (runAttempts hbd raws tries fuel unlock).2.2 ∧
    (runAttempts hbd raws tries fuel unlock).2.1 = false) ∧
  ((∀ i r, Ev.attempt i (RawResult.resp r) ∈ (runAttempts hbd raws tries fuel unlock).2.2 →
    qualifies r = false) → (runAttempts hbd raws tries fuel unlock).2.1 = unlock) ∧
  (∀ j x, Ev.attempt j x ∈ (runAttempts hbd raws tries fuel unlock).2.2 → x = raws j)

/-- A 204 text response used as a witness. -/
def respOkText : Response :=
  { status := 204, contentType := "text/plain", xRatelimitRemaining := none,
    resetDelay := 0, bodyText := "done", bodyJson := JsonV.null }

/-- A 403 response used as a witness. -/
def resp403 : Response :=
  { status := 403, contentType := "text/plain", xRatelimitRemaining := none,
    resetDelay := 0, bodyText := "forbidden", bodyJson := JsonV.null }

/-- A 404 response used as a witness. -/
def resp404 : Response :=
  { status := 404, contentType := "text/plain", xRatelimitRemaining := none,
    resetDelay := 0, bodyText := "not found", bodyJson := JsonV.null }

/-- A 418 response used as a witness. -/
def resp418 : Response :=
  { status := 418, contentType := "text/plain", xRatelimitRemaining := none,
    resetDelay := 0, bodyText := "teapot", bodyJson := JsonV.null }

/-- A 502 response used in the retry-exhaustion scenario. -/
def resp502 : Response :=
  { status := 502, contentType := "text/html", xRatelimitRemaining := none,
    resetDelay := 0, bodyText := "bad gateway", bodyJson := JsonV.null }

/-- The 429 response of the retry scenario: `retry_after: 500` in its
JSON body. -/
def resp429half : Response :=
  { status := 429, contentType := "application/json", xRatelimitRemaining := none,
    resetDelay := 0, bodyText := "rate limited", bodyJson := JsonV.obj [("retry_after", JsonV.num 500)] }

/-- The 200 JSON response of the retry scenario. -/
def respOkJson : Response :=
  { status := 200, contentType := "application/json", xRatelimitRemaining := some "5",
    resetDelay := 0, bodyText := "payload", bodyJson := JsonV.obj [("id", JsonV.num 1)] }

/-- Oracle answering 429 once and then 200. -/
def raws429once : Nat → RawResult :=
  fun i => if i = 0 then RawResult.resp resp429half else RawResult.resp respOkJson

/-- Selector for sleep events. -/
def isSleepEv : Ev → Bool
  | Ev.sleep _ => true
  | _ => false

/-- A 200 response whose `X-Ratelimit-Remaining` header is `'0'`. -/
def respExhaust : Response :=
  { status := 200, contentType := "application/json", xRatelimitRemaining := some "0",
    resetDelay := 3, bodyText := "p", bodyJson := JsonV.null }

/-- A global 429 response: `retry_after: 1000`, `global: true`. -/
def resp429global : Response :=
  { status := 429, contentType := "application/json", xRatelimitRemaining := none,
    resetDelay := 0, bodyText := "grl",
    bodyJson := JsonV.obj [("retry_after", JsonV.num 1000), ("global", JsonV.bool true)] }

/-- A state with task 0 running on bucket `"b"`, task 1 ahead of the
cleared global gate. -/
def sysGlobalWait : Sys :=
  { bucketOf := fun _ => "b",
    phase := fun j => if j = 0 then Phase.running 0 false else Phase.waitingGlobal,
    holder := fun b' => if b' = "b" then some 0 else none,
    timers := [], globalOver := false }

/-- A 401 response to the login check. -/
def resp401 : Response :=
  { status := 401, contentType := "application/json", xRatelimitRemaining := none,
    resetDelay := 0, bodyText := "unauthorized", bodyJson := JsonV.obj [("code", JsonV.num 0)] }

/-- Two fresh requests for bucket `"b"`. -/
def sysA : Sys := Sys.init (fun _ => "b") true

/-- Task 0 past the global gate. -/
def sysB : Sys := { sysA with phase := setP sysA.phase 0 Phase.waitingLock }

/-- Task 1 past the global gate. -/
def sysC : Sys := { sysB with phase := setP sysB.phase 1 Phase.waitingLock }

/-- Task 0 holds the bucket lock, first attempt in flight. -/
def sysD : Sys :=
  { sysC with phase := setP sysC.phase 0 (Phase.running 0 false),
              holder := setH sysC.holder (sysC.bucketOf 0) (some 0) }

/-- Task 0's first response paired `X-Ratelimit-Remaining: 0` with a
502: release deferred and scheduled on a timer while the loop retries. -/
def sysE : Sys :=
  { sysD with phase := setP sysD.phase 0 (Phase.running 1 true),
              timers := sysD.bucketOf 0 :: sysD.timers }

/-- The deferred-release timer fires during task 0's retry. -/
def sysF : Sys :=
  { sysE with holder := setH sysE.holder "b" none, timers := sysE.timers.erase "b" }

/-- Task 1 acquires the freed lock: two attempts in flight on `"b"`. -/
def sysG : Sys :=
  { sysF with phase := setP sysF.phase 1 (Phase.running 0 false),
              holder := setH sysF.holder (sysF.bucketOf 1) (some 1) }

/-- Every character of a rendered decimal number is an ASCII digit. -/
theorem natStr_isDigit {n : Nat} {c : Char} (hc : c ∈ (natStr n).data) : c.isDigit = true := by
  unfold natStr at hc
  split at hc
  · have h0 : ("0" : String).data = ['0'] := rfl
    rw [h0] at hc
    cases hc with
    | head => decide
    | tail _ h => cases h
  · simp only [List.mem_reverse, List.mem_map] at hc
    obtain ⟨d, hd, hdc⟩ := hc
    have hd10 : d < 10 := Nat.digits_lt_base (by norm_num) hd
    subst hdc
    interval_cases d <;> decide

/-- The digit-rendering function is injective below the base. -/
theorem digitChar_injOn {a b : Nat} (ha : a < 10) (hb : b < 10)
    (h : digitChar a = digitChar b) : a = b := by
  interval_cases a <;> interval_cases b <;> simp_all [digitChar]

theorem map_digitChar_inj : ∀ (l₁ l₂ : List Nat), (∀ x ∈ l₁, x < 10) → (∀ x ∈ l₂, x < 10) →
    l₁.map digitChar = l₂.map digitChar → l₁ = l₂ := by
  intro l₁
  induction l₁ with
  | nil => intro l₂ _ _ h; cases l₂ <;> simp_all
  | cons a t ih =>
    intro l₂ h₁ h₂ h
    cases l₂ with
    | nil => simp at h
    | cons b t' =>
      simp only [List.map_cons, List.cons.injEq] at h
      have hab : a = b :=
        digitChar_injOn (h₁ a (by simp)) (h₂ b (by simp)) h.1
      have : t = t' := ih t' (fun x hx => h₁ x (by simp [hx])) (fun x hx => h₂ x (by simp [hx])) h.2
      simp [hab, this]

/-- A nonzero natural never renders as the string `"0"`. -/
theorem natStr_ne_zeroStr {n : Nat} (hn : n ≠ 0) : natStr n ≠ "0" := by
  intro h
  unfold natStr at h
  rw [if_neg hn, String.ext_iff] at h
  have hrev : (Nat.digits 10 n).map digitChar = ['0'] := by
    have h' := congrArg List.reverse h
    simpa using h'
  rcases hx : Nat.digits 10 n with _ | ⟨d, t⟩
  · rw [hx] at hrev; simp at hrev
  · rw [hx] at hrev
    simp only [List.map_cons] at hrev
    have ht : t = [] := by
      cases t with
      | nil => rfl
      | cons _ _ => simp at hrev
    subst ht
    simp only [List.map_nil, List.cons.injEq, and_true] at hrev
    have hdlt : d < 10 := Nat.digits_lt_base (by norm_num) (by rw [hx]; simp)
    have hd0 : d = 0 := digitChar_injOn hdlt (by norm_num) (by simpa [digitChar] using hrev)
    have h1 := Nat.ofDigits_digits 10 n
    rw [hx, hd0] at h1
    simp [Nat.ofDigits] at h1
    exact hn h1.symm

/-- Decimal rendering of naturals is injective. -/
theorem natStr_inj {m n : Nat} (h : natStr m = natStr n) : m = n := by
  by_cases hm : m = 0 <;> by_cases hn : n = 0
  · omega
  · exact absurd ((by rw [hm] at h; exact h.symm) : natStr n = "0") (natStr_ne_zeroStr hn)
  · exact absurd ((by rw [hn] at h; exact h) : natStr m = "0") (natStr_ne_zeroStr hm)
  · unfold natStr at h
    rw [if_neg hm, if_neg hn, String.ext_iff] at h
    have h' := congrArg List.reverse h
    simp only [List.reverse_reverse] at h'
    have : Nat.digits 10 m = Nat.digits 10 n :=
      map_digitChar_inj _ _ (fun _ hx => Nat.digits_lt_base (by norm_num) hx)
        (fun _ hx => Nat.digits_lt_base (by norm_num) hx) h'
    exact Nat.digits.injective 10 this

/-- The separator `':'` never occurs in a rendered major-parameter value
(digits and `"None"` are colon-free). -/
theorem colon_not_mem_optRepr (x : Option Nat) : ':' ∉ (optRepr x).data := by
  cases x with
  | none => decide
  | some n =>
    intro h
    exact absurd (natStr_isDigit h) (by decide)

/-- Rendering of optional major parameters is injective: `"None"` is not
a digit string, and digit strings determine the number. -/
theorem optRepr_inj : ∀ {x y : Option Nat}, optRepr x = optRepr y → x = y := by
  intro x y h
  cases x with
  | none =>
    cases y with
    | none => rfl
    | some n =>
      exfalso
      have hm : 'N' ∈ (natStr n).data := by
        rw [show natStr n = optRepr (some n) from rfl, ← h]
        decide
      exact absurd (natStr_isDigit hm) (by decide)
  | some m =>
    cases y with
    | none =>
      exfalso
      have hm : 'N' ∈ (natStr m).data := by
        rw [show natStr m = optRepr (some m) from rfl, h]
        decide
      exact absurd (natStr_isDigit hm) (by decide)
    | some n => exact congrArg some (natStr_inj h)

/-- Splitting at the first separator: a concatenation `a ++ ':' :: x` with
`a` colon-free determines `a` and `x`. -/
theorem colon_split : ∀ (a b x y : List Char), ':' ∉ a → ':' ∉ b →
    a ++ ':' :: x = b ++ ':' :: y → a = b ∧ x = y := by
  intro a
  induction a with
  | nil =>
    intro b x y _ hb h
    cases b with
    | nil => simpa using h
    | cons d u =>
      exfalso
      simp only [List.nil_append, List.cons_append, List.cons.injEq] at h
      exact hb (h.1 ▸ List.mem_cons_self d u)
  | cons c t ih =>
    intro b x y ha hb h
    cases b with
    | nil =>
      exfalso
      simp only [List.cons_append, List.nil_append, List.cons.injEq] at h
      exact ha (h.1 ▸ List.mem_cons_self c t)
    | cons d u =>
      simp only [List.cons_append, List.cons.injEq] at h
      obtain ⟨hcd, h2⟩ := h
      have hrec := ih u x y (fun hm => ha (List.mem_cons_of_mem _ hm))
        (fun hm => hb (List.mem_cons_of_mem _ hm)) h2
      exact ⟨by rw [hcd, hrec.1], hrec.2⟩

/-- Character-level decomposition of a bucket key. -/
theorem bucket_data (r : Route) : (Route.bucket r).data =
    r.method.data ++ ':' :: ((optRepr r.channel_id).data ++ ':' ::
      ((optRepr r.guild_id).data ++ ':' :: r.path.data)) := by
  show (r.method ++ ":" ++ optRepr r.channel_id ++ ":" ++ optRepr r.guild_id ++ ":" ++ r.path).data = _
  simp [String.data_append, List.append_assoc]

/-- Equal bucket keys with equal method and path force equal major
parameters. -/
theorem bucket_determines (r₁ r₂ : Route) (hm : r₁.method = r₂.method)
    (hb : r₁.bucket = r₂.bucket) :
    r₁.channel_id = r₂.channel_id ∧ r₁.guild_id = r₂.guild_id := by
  have hd : (Route.bucket r₁).data = (Route.bucket r₂).data := by rw [hb]
  rw [bucket_data, bucket_data, hm] at hd
  have h1 := List.append_cancel_left hd
  injection h1 with _ h2
  have h3 := colon_split _ _ _ _ (colon_not_mem_optRepr r₁.channel_id)
    (colon_not_mem_optRepr r₂.channel_id) h2
  have hcid : r₁.channel_id = r₂.channel_id :=
    optRepr_inj (String.ext h3.1)
  have h4 := colon_split _ _ _ _ (colon_not_mem_optRepr r₁.guild_id)
    (colon_not_mem_optRepr r₂.guild_id) h3.2
  exact ⟨hcid, optRepr_inj (String.ext h4.1)⟩

/-- C1 (counterexample): the bucket key of a `Route` without major
parameters is `"GET:None:None:/gateway"` — Python's `format` renders an
absent id as `"None"` — and not the spec's `"{method}:::path"` string
with empty segments. -/
theorem C1_counterexample :
    (Route.make "GET" "/gateway" none none none []).bucket = "GET:None:None:/gateway" ∧
    (Route.make "GET" "/gateway" none none none []).bucket ≠
      specBucketKey "GET" none none "/gateway" := by
  constructor
  · rfl
  · decide

/-- C1 (amended): the bucket key is
`"{method}:{channel_id or None}:{guild_id or None}:{path_template}"`,
built from the unresolved template and the major parameters only (an
absent id rendering as `"None"`, not as an empty segment).  Consequently
two Routes with the same method, path template, channel_id and guild_id
have identical bucket keys regardless of the resolved URL, and two
Routes with the same method and path template differing in channel_id or
guild_id have different bucket keys. -/
theorem C1_bucket_key :
    (∀ (method path : String) (channel : Option Channel) (channel_id guild_id : Option Nat)
      (others : List (String × String)),
      (Route.make method path channel channel_id guild_id others).bucket =
        method ++ ":" ++
          optRepr (match channel with | some c => some c.id | none => channel_id) ++ ":" ++
          optRepr guild_id ++ ":" ++ path) ∧
    (∀ r₁ r₂ : Route, r₁.method = r₂.method → r₁.path = r₂.path →
      r₁.channel_id = r₂.channel_id → r₁.guild_id = r₂.guild_id →
      r₁.bucket = r₂.bucket) ∧
    (∀ r₁ r₂ : Route, r₁.method = r₂.method → r₁.path = r₂.path →
      (r₁.channel_id ≠ r₂.channel_id ∨ r₁.guild_id ≠ r₂.guild_id) →
      r₁.bucket ≠ r₂.bucket) := by
  refine ⟨?_, ?_, ?_⟩
  · intro method path channel channel_id guild_id others
    cases channel <;> rfl
  · intro r₁ r₂ hm hp hc hg
    unfold Route.bucket
    rw [hm, hp, hc, hg]
  · intro r₁ r₂ hm _hp hne hb
    have := bucket_determines r₁ r₂ hm hb
    rcases hne with h | h
    · exact h this.1
    · exact h this.2

/-- C1 witness: the amended statement evaluated at concrete routes. -/
theorem C1_bucket_key_witness :
    (Route.make "GET" "/x" none none none []).bucket =
      "GET" ++ ":" ++ optRepr none ++ ":" ++ optRepr none ++ ":" ++ "/x" ∧
    (Route.make "GET" "/x" none none none []).bucket =
      (Route.make "GET" "/x" none none none []).bucket ∧
    (Route.make "GET" "/x" none none none []).bucket ≠
      (Route.make "GET" "/x" none none (some 1) []).bucket :=
  ⟨C1_bucket_key.1 "GET" "/x" none none none [],
   C1_bucket_key.2.1 (Route.make "GET" "/x" none none none [])
     (Route.make "GET" "/x" none none none []) rfl rfl rfl rfl,
   C1_bucket_key.2.2 (Route.make "GET" "/x" none none none [])
     (Route.make "GET" "/x" none none (some 1) []) rfl rfl (Or.inr (by decide))⟩

theorem setP_eq (f : Nat → Phase) (i : Nat) (p : Phase) : setP f i p i = p := by
  simp [setP]

theorem setP_ne (f : Nat → Phase) (i : Nat) (p : Phase) (j : Nat) (h : j ≠ i) :
    setP f i p j = f j := by
  simp [setP, h]

theorem setH_eq (h : String → Option Nat) (b : String) (v : Option Nat) : setH h b v b = v := by
  simp [setH]

theorem setH_ne (h : String → Option Nat) (b : String) (v : Option Nat) (b' : String)
    (hb : b' ≠ b) : setH h b v b' = h b' := by
  simp [setH, hb]

/-- The lock-discipline invariant is preserved by every step of the
system in which no retrying attempt defers its release. -/
theorem LockInv_step {s s' : Sys} (hs : LockInv s) (hstep : Step false s s') : LockInv s' := by
  obtain ⟨I1, I2, I3, I4⟩ := hs
  cases hstep with
  | passGlobal i hp hg =>
    refine ⟨?_, ?_, I3, I4⟩
    · intro j t dfr hj
      dsimp only at hj ⊢
      by_cases hji : j = i
      · subst hji; rw [setP_eq] at hj; cases hj
      · rw [setP_ne _ _ _ _ hji] at hj
        exact I1 j t dfr hj
    · intro b hb j t dfr hj
      dsimp only at hb hj ⊢
      by_cases hji : j = i
      · subst hji; rw [setP_eq] at hj; cases hj
      · rw [setP_ne _ _ _ _ hji] at hj
        exact I2 b hb j t dfr hj
  | acquire i hp hh =>
    refine ⟨?_, ?_, ?_, I4⟩
    · intro j t dfr hj
      dsimp only at hj ⊢
      by_cases hji : j = i
      · subst hji
        rw [setH_eq]
      · rw [setP_ne _ _ _ _ hji] at hj
        have hold := I1 j t dfr hj
        have hne : s.bucketOf j ≠ s.bucketOf i := by
          intro hbb
          rw [hbb, hh] at hold
          cases hold
        rw [setH_ne _ _ _ _ hne]
        exact hold
    · intro b hb j t dfr hj
      dsimp only at hb hj ⊢
      by_cases hji : j = i
      · subst hji
        intro hbb
        exact (I3 b hb) (hbb ▸ hh)
      · rw [setP_ne _ _ _ _ hji] at hj
        exact I2 b hb j t dfr hj
    · intro b hb
      dsimp only at hb ⊢
      by_cases hbb : b = s.bucketOf i
      · subst hbb
        rw [setH_eq]
        simp
      · rw [setH_ne _ _ _ _ hbb]
        exact I3 b hb
  | finishRelease i t ht =>
    refine ⟨?_, ?_, ?_, I4⟩
    · intro j t' dfr hj
      dsimp only at hj ⊢
      by_cases hji : j = i
      · subst hji; rw [setP_eq] at hj; cases hj
      · rw [setP_ne _ _ _ _ hji] at hj
        have hold := I1 j t' dfr hj
        have hne : s.bucketOf j ≠ s.bucketOf i := by
          intro hbb
          have h1 := I1 i t false ht
          rw [hbb, h1] at hold
          injection hold with hji'
          exact hji hji'.symm
        rw [setH_ne _ _ _ _ hne]
        exact hold
    · intro b hb j t' dfr hj
      dsimp only at hb hj ⊢
      by_cases hji : j = i
      · subst hji; rw [setP_eq] at hj; cases hj
      · rw [setP_ne _ _ _ _ hji] at hj
        exact I2 b hb j t' dfr hj
    · intro b hb
      dsimp only at hb ⊢
      have hne : b ≠ s.bucketOf i := fun hbb => (I2 b hb i t false ht) hbb.symm
      rw [setH_ne _ _ _ _ hne]
      exact I3 b hb
  | finishDeferred i t dfr ht =>
    refine ⟨?_, ?_, ?_, ?_⟩
    · intro j t' dfr' hj
      dsimp only at hj ⊢
      by_cases hji : j = i
      · subst hji; rw [setP_eq] at hj; cases hj
      · rw [setP_ne _ _ _ _ hji] at hj
        exact I1 j t' dfr' hj
    · intro b hb j t' dfr' hj
      dsimp only at hb hj ⊢
      by_cases hji : j = i
      · subst hji; rw [setP_eq] at hj; cases hj
      · rw [setP_ne _ _ _ _ hji] at hj
        rcases List.mem_cons.mp hb with hbb | hb'
        · subst hbb
          intro hbj
          have h1 := I1 i t dfr ht
          have h2 := I1 j t' dfr' hj
          rw [hbj, h1] at h2
          injection h2 with hji'
          exact hji hji'.symm
        · exact I2 b hb' j t' dfr' hj
    · intro b hb
      dsimp only at hb ⊢
      rcases List.mem_cons.mp hb with hbb | hb'
      · subst hbb
        rw [I1 i t dfr ht]
        simp
      · exact I3 b hb'
    · show (s.bucketOf i :: s.timers).Nodup
      rw [List.nodup_cons]
      exact ⟨fun hmem => (I2 _ hmem i t dfr ht) rfl, I4⟩
  | finishNoRelease i t ht =>
    refine ⟨?_, ?_, I3, I4⟩
    · intro j t' dfr hj
      dsimp only at hj ⊢
      by_cases hji : j = i
      · subst hji; rw [setP_eq] at hj; cases hj
      · rw [setP_ne _ _ _ _ hji] at hj
        exact I1 j t' dfr hj
    · intro b hb j t' dfr hj
      dsimp only at hb hj ⊢
      by_cases hji : j = i
      · subst hji; rw [setP_eq] at hj; cases hj
      · rw [setP_ne _ _ _ _ hji] at hj
        exact I2 b hb j t' dfr hj
  | retryStep i t dfr ht hlt =>
    refine ⟨?_, ?_, I3, I4⟩
    · intro j t' dfr' hj
      dsimp only at hj ⊢
      by_cases hji : j = i
      · subst hji
        exact I1 j t dfr ht
      · rw [setP_ne _ _ _ _ hji] at hj
        exact I1 j t' dfr' hj
    · intro b hb j t' dfr' hj
      dsimp only at hb hj ⊢
      by_cases hji : j = i
      · subst hji
        exact I2 b hb j t dfr ht
      · rw [setP_ne _ _ _ _ hji] at hj
        exact I2 b hb j t' dfr' hj
  | retryDefer i t dfr hd ht hlt =>
    cases hd
  | timerFire b hb =>
    refine ⟨?_, ?_, ?_, I4.erase b⟩
    · intro j t dfr hj
      dsimp only at hj ⊢
      have hne : s.bucketOf j ≠ b := I2 b hb j t dfr hj
      rw [setH_ne _ _ _ _ hne]
      exact I1 j t dfr hj
    · intro b' hb' j t dfr hj
      dsimp only at hb' hj ⊢
      exact I2 b' (List.mem_of_mem_erase hb') j t dfr hj
    · intro b' hb'
      dsimp only at hb' ⊢
      have hbne : b' ≠ b := by
        intro he
        subst he
        exact I4.not_mem_erase hb'
      rw [setH_ne _ _ _ _ hbne]
      exact I3 b' (List.mem_of_mem_erase hb')
  | globalClear i t dfr ht =>
    exact ⟨I1, I2, I3, I4⟩
  | globalSet i t dfr ht =>
    exact ⟨I1, I2, I3, I4⟩

/-- The invariant holds initially. -/
theorem LockInv_init (bucketOf : Nat → String) (g : Bool) : LockInv (Sys.init bucketOf g) := by
  refine ⟨?_, ?_, ?_, ?_⟩
  · intro i t dfr h
    cases h
  · intro b hb
    cases hb
  · intro b hb
    cases hb
  · exact List.nodup_nil

/-- The invariant holds in every reachable state of the no-defer-retry
system. -/
theorem LockInv_reach {bucketOf : Nat → String} {g : Bool} {s : Sys}
    (h : Reach false (Sys.init bucketOf g) s) : LockInv s := by
  induction h with
  | refl => exact LockInv_init bucketOf g
  | tail _ hstep ih => exact LockInv_step ih hstep

theorem eqNetFail (hbd : Option ℚ) (raws : Nat → RawResult) (tries fuel : Nat) (unlock : Bool)
    (h : raws tries = RawResult.netFail) :
    runAttempts hbd raws tries (fuel+1) unlock =
      (Except.error ReqErr.transport, unlock, [Ev.attempt tries RawResult.netFail]) := by
  simp only [runAttempts, h]

theorem eqSuccess (hbd : Option ℚ) (raws : Nat → RawResult) (tries fuel : Nat) (unlock : Bool)
    (r : Response) (h : raws tries = RawResult.resp r) (hc : 200 ≤ r.status ∧ r.status < 300) :
    runAttempts hbd raws tries (fuel+1) unlock =
      (Except.ok (json_or_text r), unlockAfter r unlock,
        Ev.attempt tries (RawResult.resp r) :: deferEvs hbd r) := by
  simp only [runAttempts, h]
  rw [if_pos hc]

theorem eq429retry (hbd : Option ℚ) (raws : Nat → RawResult) (tries fuel : Nat) (unlock : Bool)
    (r : Response) (ms : Int) (h : raws tries = RawResult.resp r) (hst : r.status = 429)
    (hra : retryAfterMs (json_or_text r) = some ms) :
    runAttempts hbd raws tries (fuel+2) unlock =
      ((runAttempts hbd raws (tries+1) (fuel+1) (unlockAfter r unlock)).1,
       (runAttempts hbd raws (tries+1) (fuel+1) (unlockAfter r unlock)).2.1,
       Ev.attempt tries (RawResult.resp r) ::
         (deferEvs hbd r ++
          sleep429Evs (isGlobalBody (json_or_text r)) ((ms : ℚ) / 1000) ++
          (runAttempts hbd raws (tries+1) (fuel+1) (unlockAfter r unlock)).2.2)) := by
  simp only [runAttempts, h, hra]
  rw [if_neg (by omega), if_pos hst]
  simp

theorem eq429last (hbd : Option ℚ) (raws : Nat → RawResult) (tries : Nat) (unlock : Bool)
    (r : Response) (ms : Int) (h : raws tries = RawResult.resp r) (hst : r.status = 429)
    (hra : retryAfterMs (json_or_text r) = some ms) :
    runAttempts hbd raws tries 1 unlock =
      (Except.error (ReqErr.httpException r.status (json_or_text r)), unlockAfter r unlock,
        Ev.attempt tries (RawResult.resp r) ::
          (deferEvs hbd r ++
           sleep429Evs (isGlobalBody (json_or_text r)) ((ms : ℚ) / 1000))) := by
  show runAttempts hbd raws tries (0+1) unlock = _
  simp only [runAttempts, h, hra]
  rw [if_neg (by omega), if_pos hst]
  simp

theorem eq429badbody (hbd : Option ℚ) (raws : Nat → RawResult) (tries fuel : Nat) (unlock : Bool)
    (r : Response) (h : raws tries = RawResult.resp r) (hst : r.status = 429)
    (hra : retryAfterMs (json_or_text r) = none) :
    runAttempts hbd raws tries (fuel+1) unlock =
      (Except.error ReqErr.pyError, unlockAfter r unlock,
        Ev.attempt tries (RawResult.resp r) :: deferEvs hbd r) := by
  simp only [runAttempts, h, hra]
  rw [if_neg (by omega), if_pos hst]

theorem eq50xretry (hbd : Option ℚ) (raws : Nat → RawResult) (tries fuel : Nat) (unlock : Bool)
    (r : Response) (h : raws tries = RawResult.resp r) (hst : r.status = 500 ∨ r.status = 502) :
    runAttempts hbd raws tries (fuel+2) unlock =
      ((runAttempts hbd raws (tries+1) (fuel+1) (unlockAfter r unlock)).1,
       (runAttempts hbd raws (tries+1) (fuel+1) (unlockAfter r unlock)).2.1,
       Ev.attempt tries (RawResult.resp r) ::
         (deferEvs hbd r ++ [Ev.sleep ((1 + tries * 2 : Nat) : ℚ)] ++
          (runAttempts hbd raws (tries+1) (fuel+1) (unlockAfter r unlock)).2.2)) := by
  simp only [runAttempts, h]
  rw [if_neg (by omega), if_neg (by omega), if_pos hst]
  simp

theorem eq50xlast (hbd : Option ℚ) (raws : Nat → RawResult) (tries : Nat) (unlock : Bool)
    (r : Response) (h : raws tries = RawResult.resp r) (hst : r.status = 500 ∨ r.status = 502) :
    runAttempts hbd raws tries 1 unlock =
      (Except.error (ReqErr.httpException r.status (json_or_text r)), unlockAfter r unlock,
        Ev.attempt tries (RawResult.resp r) ::
          (deferEvs hbd r ++ [Ev.sleep ((1 + tries * 2 : Nat) : ℚ)])) := by
  show runAttempts hbd raws tries (0+1) unlock = _
  simp only [runAttempts, h]
  rw [if_neg (by omega), if_neg (by omega), if_pos hst]
  simp

theorem eq403 (hbd : Option ℚ) (raws : Nat → RawResult) (tries fuel : Nat) (unlock : Bool)
    (r : Response) (h : raws tries = RawResult.resp r) (hst : r.status = 403) :
    runAttempts hbd raws tries (fuel+1) unlock =
      (Except.error (ReqErr.forbidden r.status (json_or_text r)), unlockAfter r unlock,
        Ev.attempt tries (RawResult.resp r) :: deferEvs hbd r) := by
  simp only [runAttempts, h]
  rw [if_neg (by omega), if_neg (by omega), if_neg (by omega), if_pos hst]

theorem eq404 (hbd : Option ℚ) (raws : Nat → RawResult) (tries fuel : Nat) (unlock : Bool)
    (r : Response) (h : raws tries = RawResult.resp r) (hst : r.status = 404) :
    runAttempts hbd raws tries (fuel+1) unlock =
      (Except.error (ReqErr.notFound r.status (json_or_text r)), unlockAfter r unlock,
        Ev.attempt tries (RawResult.resp r) :: deferEvs hbd r) := by
  simp only [runAttempts, h]
  rw [if_neg (by omega), if_neg (by omega), if_neg (by omega), if_neg (by omega),
    if_pos hst]

theorem eqOther (hbd : Option ℚ) (raws : Nat → RawResult) (tries fuel : Nat) (unlock : Bool)
    (r : Response) (h : raws tries = RawResult.resp r)
    (hc : ¬(200 ≤ r.status ∧ r.status < 300)) (h429 : r.status ≠ 429)
    (h50x : ¬(r.status = 500 ∨ r.status = 502)) (h403 : r.status ≠ 403)
    (h404 : r.status ≠ 404) :
    runAttempts hbd raws tries (fuel+1) unlock =
      (Except.error (ReqErr.httpException r.status (json_or_text r)), unlockAfter r unlock,
        Ev.attempt tries (RawResult.resp r) :: deferEvs hbd r) := by
  simp only [runAttempts, h]
  rw [if_neg hc, if_neg h429, if_neg h50x, if_neg h403, if_neg h404]

theorem attempt_not_mem_deferEvs (hbd : Option ℚ) (r : Response) (j : Nat) (x : RawResult) :
    Ev.attempt j x ∉ deferEvs hbd r := by
  unfold deferEvs
  split <;> simp

theorem attempt_not_mem_sleep429 (g : Bool) (secs : ℚ) (j : Nat) (x : RawResult) :
    Ev.attempt j x ∉ sleep429Evs g secs := by
  cases g <;> simp [sleep429Evs]

theorem attempt_not_mem_sleepSingle (secs : ℚ) (j : Nat) (x : RawResult) :
    Ev.attempt j x ∉ [Ev.sleep secs] := by
  simp

theorem deferRelease_mem_deferEvs (hbd : Option ℚ) (r : Response) (hq : qualifies r = true) :
    Ev.deferRelease (deferDelta hbd r) ∈ deferEvs hbd r := by
  simp [deferEvs, hq]

theorem nonrec_parts (hbd : Option ℚ) (raws : Nat → RawResult) (tries fuel : Nat)
    (unlock : Bool) (r : Response) (res : Except ReqErr Body) (extra : List Ev)
    (hextra : ∀ j x, Ev.attempt j x ∉ extra) (hfuel : 1 ≤ fuel)
    (hr : raws tries = RawResult.resp r)
    (heq : runAttempts hbd raws tries fuel unlock =
      (res, unlockAfter r unlock,
        Ev.attempt tries (RawResult.resp r) :: (deferEvs hbd r ++ extra))) :
    RunProps hbd raws fuel tries unlock := by
  refine ⟨?_, ?_, ?_, ?_, ?_⟩
  · intro j x hmem
    rw [heq] at hmem
    rcases List.mem_cons.mp hmem with he | hm
    · simp only [Ev.attempt.injEq] at he
      omega
    · rcases List.mem_append.mp hm with hm1 | hm2
      · exact absurd hm1 (attempt_not_mem_deferEvs hbd r j x)
      · exact absurd hm2 (hextra j x)
  · intro hu
    rw [heq]
    show unlockAfter r unlock = false
    rw [hu]
    unfold unlockAfter
    split <;> rfl
  · intro i r' hmem hq
    rw [heq] at hmem ⊢
    rcases List.mem_cons.mp hmem with he | hm
    · simp only [Ev.attempt.injEq, RawResult.resp.injEq] at he
      obtain ⟨_, hrr⟩ := he
      subst hrr
      constructor
      · exact List.mem_cons_of_mem _
          (List.mem_append_left _ (deferRelease_mem_deferEvs hbd r' hq))
      · show unlockAfter r' unlock = false
        simp [unlockAfter, hq]
    · rcases List.mem_append.mp hm with hm1 | hm2
      · exact absurd hm1 (attempt_not_mem_deferEvs hbd r i (RawResult.resp r'))
      · exact absurd hm2 (hextra i (RawResult.resp r'))
  · intro h
    rw [heq]
    have hqr : qualifies r = false := by
      refine h tries r ?_
      rw [heq]
      exact List.mem_cons_self _ _
    show unlockAfter r unlock = unlock
    simp [unlockAfter, hqr]
  · intro j x hmem
    rw [heq] at hmem
    rcases List.mem_cons.mp hmem with he | hm
    · simp only [Ev.attempt.injEq] at he
      obtain ⟨hj, hx⟩ := he
      rw [hj, hx, hr]
    · rcases List.mem_append.mp hm with hm1 | hm2
      · exact absurd hm1 (attempt_not_mem_deferEvs hbd r j x)
      · exact absurd hm2 (hextra j x)

theorem rec_parts (hbd : Option ℚ) (raws : Nat → RawResult) (tries fuel : Nat)
    (unlock : Bool) (r : Response) (extra : List Ev)
    (hextra : ∀ j x, Ev.attempt j x ∉ extra)
    (hr : raws tries = RawResult.resp r)
    (ihp : RunProps hbd raws (fuel+1) (tries+1) (unlockAfter r unlock))
    (heq : runAttempts hbd raws tries (fuel+2) unlock =
      ((runAttempts hbd raws (tries+1) (fuel+1) (unlockAfter r unlock)).1,
       (runAttempts hbd raws (tries+1) (fuel+1) (unlockAfter r unlock)).2.1,
       Ev.attempt tries (RawResult.resp r) ::
         (deferEvs hbd r ++ extra ++
           (runAttempts hbd raws (tries+1) (fuel+1) (unlockAfter r unlock)).2.2))) :
    RunProps hbd raws (fuel+2) tries unlock := by
  obtain ⟨ih1, ih2, ih3, ih4, ih5⟩ := ihp
  refine ⟨?_, ?_, ?_, ?_, ?_⟩
  · intro j x hmem
    rw [heq] at hmem
    rcases List.mem_cons.mp hmem with he | hm
    · simp only [Ev.attempt.injEq] at he
      omega
    · rcases List.mem_append.mp hm with hm1 | hm2
      · rcases List.mem_append.mp hm1 with hma | hmb
        · exact absurd hma (attempt_not_mem_deferEvs hbd r j x)
        · exact absurd hmb (hextra j x)
      · have := ih1 j x hm2
        omega
  · intro hu
    rw [heq]
    have hua : unlockAfter r unlock = false := by
      rw [hu]
      unfold unlockAfter
      split <;> rfl
    exact ih2 hua
  · intro i r' hmem hq
    rw [heq] at hmem ⊢
    rcases List.mem_cons.mp hmem with he | hm
    · simp only [Ev.attempt.injEq, RawResult.resp.injEq] at he
      obtain ⟨_, hrr⟩ := he
      subst hrr
      constructor
      · exact List.mem_cons_of_mem _
          (List.mem_append_left _ (List.mem_append_left _ (deferRelease_mem_deferEvs hbd r' hq)))
      · exact ih2 (by simp [unlockAfter, hq])
    · rcases List.mem_append.mp hm with hm1 | hm2
      · rcases List.mem_append.mp hm1 with hma | hmb
        · exact absurd hma (attempt_not_mem_deferEvs hbd r i (RawResult.resp r'))
        · exact absurd hmb (hextra i (RawResult.resp r'))
      · obtain ⟨hmm, huu⟩ := ih3 i r' hm2 hq
        exact ⟨List.mem_cons_of_mem _ (List.mem_append_right _ hmm), huu⟩
  · intro h
    have hqr : qualifies r = false := by
      refine h tries r ?_
      rw [heq]
      exact List.mem_cons_self _ _
    have hrec : (runAttempts hbd raws (tries+1) (fuel+1) (unlockAfter r unlock)).2.1
        = unlockAfter r unlock := by
      refine ih4 ?_
      intro i r' hm
      refine h i r' ?_
      rw [heq]
      exact List.mem_cons_of_mem _ (List.mem_append_right _ hm)
    rw [heq]
    show (runAttempts hbd raws (tries+1) (fuel+1) (unlockAfter r unlock)).2.1 = unlock
    rw [hrec]
    simp [unlockAfter, hqr]
  · intro j x hmem
    rw [heq] at hmem
    rcases List.mem_cons.mp hmem with he | hm
    · simp only [Ev.attempt.injEq] at he
      obtain ⟨hj, hx⟩ := he
      rw [hj, hx, hr]
    · rcases List.mem_append.mp hm with hm1 | hm2
      · rcases List.mem_append.mp hm1 with hma | hmb
        · exact absurd hma (attempt_not_mem_deferEvs hbd r j x)
        · exact absurd hmb (hextra j x)
      · exact ih5 j x hm2

/-- The loop facts hold for every fuel, position and initial flag. -/
theorem runAttempts_props (hbd : Option ℚ) (raws : Nat → RawResult) :
    ∀ (fuel tries : Nat) (unlock : Bool), RunProps hbd raws fuel tries unlock := by
  intro fuel
  induction fuel with
  | zero =>
    intro tries unlock
    refine ⟨?_, ?_, ?_, ?_, ?_⟩
    · intro j x hmem
      simp [runAttempts] at hmem
    · intro hu
      simpa [runAttempts] using hu
    · intro i r hmem
      simp [runAttempts] at hmem
    · intro _
      simp [runAttempts]
    · intro j x hmem
      simp [runAttempts] at hmem
  | succ fuel ih =>
    intro tries unlock
    rcases hr : raws tries with _ | r
    · have heq := eqNetFail hbd raws tries fuel unlock hr
      refine ⟨?_, ?_, ?_, ?_, ?_⟩
      · intro j x hmem
        rw [heq] at hmem
        rcases List.mem_cons.mp hmem with he | hm
        · simp only [Ev.attempt.injEq] at he
          omega
        · cases hm
      · intro hu
        rw [heq]
        exact hu
      · intro i r' hmem hq
        rw [heq] at hmem
        rcases List.mem_cons.mp hmem with he | hm
        · simp at he
        · cases hm
      · intro _
        rw [heq]
      · intro j x hmem
        rw [heq] at hmem
        rcases List.mem_cons.mp hmem with he | hm
        · simp only [Ev.attempt.injEq] at he
          obtain ⟨hj, hx⟩ := he
          rw [hj, hx, hr]
        · cases hm
    · by_cases hc1 : 200 ≤ r.status ∧ r.status < 300
      · refine nonrec_parts hbd raws tries (fuel+1) unlock r (Except.ok (json_or_text r)) []
          (by simp) (by omega) hr ?_
        rw [eqSuccess hbd raws tries fuel unlock r hr hc1]
        simp
      · by_cases h429 : r.status = 429
        · rcases hra : retryAfterMs (json_or_text r) with _ | ms
          · refine nonrec_parts hbd raws tries (fuel+1) unlock r
              (Except.error ReqErr.pyError) [] (by simp) (by omega) hr ?_
            rw [eq429badbody hbd raws tries fuel unlock r hr h429 hra]
            simp
          · rcases fuel with _ | fuel'
            · exact nonrec_parts hbd raws tries 1 unlock r
                (Except.error (ReqErr.httpException r.status (json_or_text r)))
                (sleep429Evs (isGlobalBody (json_or_text r)) ((ms : ℚ) / 1000))
                (attempt_not_mem_sleep429 _ _)
                (by omega) hr (eq429last hbd raws tries unlock r ms hr h429 hra)
            · exact rec_parts hbd raws tries fuel' unlock r
                (sleep429Evs (isGlobalBody (json_or_text r)) ((ms : ℚ) / 1000))
                (attempt_not_mem_sleep429 _ _) hr
                (ih (tries+1) (unlockAfter r unlock))
                (eq429retry hbd raws tries fuel' unlock r ms hr h429 hra)
        · by_cases h50x : r.status = 500 ∨ r.status = 502
          · rcases fuel with _ | fuel'
            · exact nonrec_parts hbd raws tries 1 unlock r
                (Except.error (ReqErr.httpException r.status (json_or_text r)))
                [Ev.sleep ((1 + tries * 2 : Nat) : ℚ)]
                (attempt_not_mem_sleepSingle _)
                (by omega) hr (eq50xlast hbd raws tries unlock r hr h50x)
            · exact rec_parts hbd raws tries fuel' unlock r
                [Ev.sleep ((1 + tries * 2 : Nat) : ℚ)]
                (attempt_not_mem_sleepSingle _) hr
                (ih (tries+1) (unlockAfter r unlock))
                (eq50xretry hbd raws tries fuel' unlock r hr h50x)
          · by_cases h403 : r.status = 403
            · refine nonrec_parts hbd raws tries (fuel+1) unlock r
                (Except.error (ReqErr.forbidden r.status (json_or_text r))) []
                (by simp) (by omega) hr ?_
              rw [eq403 hbd raws tries fuel unlock r hr h403]
              simp
            · by_cases h404 : r.status = 404
              · refine nonrec_parts hbd raws tries (fuel+1) unlock r
                  (Except.error (ReqErr.notFound r.status (json_or_text r))) []
                  (by simp) (by omega) hr ?_
                rw [eq404 hbd raws tries fuel unlock r hr h404]
                simp
              · refine nonrec_parts hbd raws tries (fuel+1) unlock r
                  (Except.error (ReqErr.httpException r.status (json_or_text r))) []
                  (by simp) (by omega) hr ?_
                rw [eqOther hbd raws tries fuel unlock r hr hc1 h429 h50x h403 h404]
                simp

/-- Every non-exhausted call's trace begins with its first attempt. -/
theorem runAttempts_trace_head (hbd : Option ℚ) (raws : Nat → RawResult) (tries fuel : Nat)
    (unlock : Bool) :
    ∃ rest, (runAttempts hbd raws tries (fuel+1) unlock).2.2 =
      Ev.attempt tries (raws tries) :: rest := by
  rcases hr : raws tries with _ | r
  · exact ⟨[], by rw [eqNetFail hbd raws tries fuel unlock hr]⟩
  · by_cases hc1 : 200 ≤ r.status ∧ r.status < 300
    · exact ⟨_, by rw [eqSuccess hbd raws tries fuel unlock r hr hc1]⟩
    · by_cases h429 : r.status = 429
      · rcases hra : retryAfterMs (json_or_text r) with _ | ms
        · exact ⟨_, by rw [eq429badbody hbd raws tries fuel unlock r hr h429 hra]⟩
        · rcases fuel with _ | fuel'
          · exact ⟨_, by rw [eq429last hbd raws tries unlock r ms hr h429 hra]⟩
          · exact ⟨_, by rw [eq429retry hbd raws tries fuel' unlock r ms hr h429 hra]⟩
      · by_cases h50x : r.status = 500 ∨ r.status = 502
        · rcases fuel with _ | fuel'
          · exact ⟨_, by rw [eq50xlast hbd raws tries unlock r hr h50x]⟩
          · exact ⟨_, by rw [eq50xretry hbd raws tries fuel' unlock r hr h50x]⟩
        · by_cases h403 : r.status = 403
          · exact ⟨_, by rw [eq403 hbd raws tries fuel unlock r hr h403]⟩
          · by_cases h404 : r.status = 404
            · exact ⟨_, by rw [eq404 hbd raws tries fuel unlock r hr h404]⟩
            · exact ⟨_, by
                rw [eqOther hbd raws tries fuel unlock r hr hc1 h429 h50x h403 h404]⟩

theorem releaseNow_not_mem_deferEvs (hbd : Option ℚ) (r : Response) :
    Ev.releaseNow ∉ deferEvs hbd r := by
  unfold deferEvs
  split <;> simp

theorem releaseNow_not_mem_sleep429 (g : Bool) (secs : ℚ) :
    Ev.releaseNow ∉ sleep429Evs g secs := by
  cases g <;> simp [sleep429Evs]

/-- Only `MaybeUnlock.__exit__` performs a non-deferred release:
the attempt loop itself never emits one. -/
theorem releaseNow_not_mem_runAttempts (hbd : Option ℚ) (raws : Nat → RawResult) :
    ∀ (fuel tries : Nat) (unlock : Bool),
      Ev.releaseNow ∉ (runAttempts hbd raws tries fuel unlock).2.2 := by
  intro fuel
  induction fuel with
  | zero =>
    intro tries unlock h
    simp [runAttempts] at h
  | succ fuel ih =>
    intro tries unlock h
    rcases hr : raws tries with _ | r
    · rw [eqNetFail hbd raws tries fuel unlock hr] at h
      simp at h
    · by_cases hc1 : 200 ≤ r.status ∧ r.status < 300
      · rw [eqSuccess hbd raws tries fuel unlock r hr hc1] at h
        rcases List.mem_cons.mp h with he | hm
        · simp at he
        · exact releaseNow_not_mem_deferEvs hbd r hm
      · by_cases h429 : r.status = 429
        · rcases hra : retryAfterMs (json_or_text r) with _ | ms
          · rw [eq429badbody hbd raws tries fuel unlock r hr h429 hra] at h
            rcases List.mem_cons.mp h with he | hm
            · simp at he
            · exact releaseNow_not_mem_deferEvs hbd r hm
          · rcases fuel with _ | fuel'
            · rw [eq429last hbd raws tries unlock r ms hr h429 hra] at h
              rcases List.mem_cons.mp h with he | hm
              · simp at he
              · rcases List.mem_append.mp hm with hm1 | hm2
                · exact releaseNow_not_mem_deferEvs hbd r hm1
                · exact releaseNow_not_mem_sleep429 _ _ hm2
            · rw [eq429retry hbd raws tries fuel' unlock r ms hr h429 hra] at h
              rcases List.mem_cons.mp h with he | hm
              · simp at he
              · rcases List.mem_append.mp hm with hm1 | hm2
                · rcases List.mem_append.mp hm1 with hma | hmb
                  · exact releaseNow_not_mem_deferEvs hbd r hma
                  · exact releaseNow_not_mem_sleep429 _ _ hmb
                · exact ih (tries+1) (unlockAfter r unlock) hm2
        · by_cases h50x : r.status = 500 ∨ r.status = 502
          · rcases fuel with _ | fuel'
            · rw [eq50xlast hbd raws tries unlock r hr h50x] at h
              rcases List.mem_cons.mp h with he | hm
              · simp at he
              · rcases List.mem_append.mp hm with hm1 | hm2
                · exact releaseNow_not_mem_deferEvs hbd r hm1
                · simp at hm2
            · rw [eq50xretry hbd raws tries fuel' unlock r hr h50x] at h
              rcases List.mem_cons.mp h with he | hm
              · simp at he
              · rcases List.mem_append.mp hm with hm1 | hm2
                · rcases List.mem_append.mp hm1 with hma | hmb
                  · exact releaseNow_not_mem_deferEvs hbd r hma
                  · simp at hmb
                · exact ih (tries+1) (unlockAfter r unlock) hm2
          · by_cases h403 : r.status = 403
            · rw [eq403 hbd raws tries fuel unlock r hr h403] at h
              rcases List.mem_cons.mp h with he | hm
              · simp at he
              · exact releaseNow_not_mem_deferEvs hbd r hm
            · by_cases h404 : r.status = 404
              · rw [eq404 hbd raws tries fuel unlock r hr h404] at h
                rcases List.mem_cons.mp h with he | hm
                · simp at he
                · exact releaseNow_not_mem_deferEvs hbd r hm
              · rw [eqOther hbd raws tries fuel unlock r hr hc1 h429 h50x h403 h404] at h
                rcases List.mem_cons.mp h with he | hm
                · simp at he
                · exact releaseNow_not_mem_deferEvs hbd r hm

/-- An attempt event of a dispatched call sits in the attempt loop's own
trace. -/
theorem attempt_mem_request_run (g : Bool) (b : String) (hbd : Option ℚ)
    (raws : Nat → RawResult) (j : Nat) (x : RawResult)
    (h : Ev.attempt j x ∈ (HTTPClient.request g b hbd raws).2) :
    Ev.attempt j x ∈ (runAttempts hbd raws 0 5 true).2.2 := by
  simp only [HTTPClient.request] at h
  rcases List.mem_append.mp h with h1 | h2
  · rcases List.mem_append.mp h1 with hp | hr
    · rcases List.mem_append.mp hp with hpa | hpb
      · cases g <;> simp_all
      · simp at hpb
    · exact hr
  · split at h2 <;> simp at h2

/-- Conversely, every attempt-loop event appears in the dispatched
call's trace. -/
theorem run_mem_request (g : Bool) (b : String) (hbd : Option ℚ)
    (raws : Nat → RawResult) (e : Ev)
    (h : e ∈ (runAttempts hbd raws 0 5 true).2.2) :
    e ∈ (HTTPClient.request g b hbd raws).2 := by
  simp only [HTTPClient.request]
  exact List.mem_append_left _ (List.mem_append_right _ h)

theorem attempt_only_head (hbd : Option ℚ) (r : Response) (tries j : Nat) (x : RawResult)
    (hmem : Ev.attempt j x ∈ Ev.attempt tries (RawResult.resp r) :: deferEvs hbd r) :
    j = tries := by
  rcases List.mem_cons.mp hmem with he | hm
  · simp only [Ev.attempt.injEq] at he
    exact he.1
  · exact absurd hm (attempt_not_mem_deferEvs hbd r j x)

/-- C6: per attempt, a 2xx response returns the body parsed as JSON when
the content type is `application/json` and as raw text otherwise; 403
raises `Forbidden`, 404 raises `NotFound`, and any other status outside
the success range and the retry statuses raises the generic
`HTTPException`; each of these errors is raised on the first such
response, with no further attempt fired. -/
theorem C6_outcome_mapping :
    ∀ (hbd : Option ℚ) (raws : Nat → RawResult) (tries fuel : Nat) (unlock : Bool) (r : Response),
      raws tries = RawResult.resp r →
      ((200 ≤ r.status ∧ r.status < 300) →
        (runAttempts hbd raws tries (fuel+1) unlock).1 =
          Except.ok (if r.contentType = "application/json" then Body.json r.bodyJson
            else Body.text r.bodyText)) ∧
      (r.status = 403 →
        (runAttempts hbd raws tries (fuel+1) unlock).1 =
          Except.error (ReqErr.forbidden r.status (json_or_text r)) ∧
        ∀ j x, Ev.attempt j x ∈ (runAttempts hbd raws tries (fuel+1) unlock).2.2 → j = tries) ∧
      (r.status = 404 →
        (runAttempts hbd raws tries (fuel+1) unlock).1 =
          Except.error (ReqErr.notFound r.status (json_or_text r)) ∧
        ∀ j x, Ev.attempt j x ∈ (runAttempts hbd raws tries (fuel+1) unlock).2.2 → j = tries) ∧
      (¬(200 ≤ r.status ∧ r.status < 300) → r.status ≠ 429 → r.status ≠ 500 → r.status ≠ 502 →
        r.status ≠ 403 → r.status ≠ 404 →
        (runAttempts hbd raws tries (fuel+1) unlock).1 =
          Except.error (ReqErr.httpException r.status (json_or_text r)) ∧
        ∀ j x, Ev.attempt j x ∈ (runAttempts hbd raws tries (fuel+1) unlock).2.2 → j = tries) := by
  intro hbd raws tries fuel unlock r h
  refine ⟨?_, ?_, ?_, ?_⟩
  · intro hsuc
    rw [eqSuccess hbd raws tries fuel unlock r h hsuc]
    rfl
  · intro h403
    have heq := eq403 hbd raws tries fuel unlock r h h403
    constructor
    · rw [heq]
    · intro j x hmem
      rw [heq] at hmem
      exact attempt_only_head hbd r tries j x hmem
  · intro h404
    have heq := eq404 hbd raws tries fuel unlock r h h404
    constructor
    · rw [heq]
    · intro j x hmem
      rw [heq] at hmem
      exact attempt_only_head hbd r tries j x hmem
  · intro hns h429 h500 h502 h403 h404
    have heq := eqOther hbd raws tries fuel unlock r h hns h429 (by omega) h403 h404
    constructor
    · rw [heq]
    · intro j x hmem
      rw [heq] at hmem
      exact attempt_only_head hbd r tries j x hmem

/-- C6 witness: the mapping evaluated on a 204, 403, 404 and 418
response. -/
theorem C6_outcome_mapping_witness :
    (runAttempts none (fun _ => RawResult.resp respOkText) 0 5 true).1 =
      Except.ok (Body.text "done") ∧
    (runAttempts none (fun _ => RawResult.resp resp403) 0 5 true).1 =
      Except.error (ReqErr.forbidden 403 (Body.text "forbidden")) ∧
    (runAttempts none (fun _ => RawResult.resp resp404) 0 5 true).1 =
      Except.error (ReqErr.notFound 404 (Body.text "not found")) ∧
    (runAttempts none (fun _ => RawResult.resp resp418) 0 5 true).1 =
      Except.error (ReqErr.httpException 418 (Body.text "teapot")) :=
  ⟨(C6_outcome_mapping none _ 0 4 true respOkText rfl).1 (by decide),
   ((C6_outcome_mapping none _ 0 4 true resp403 rfl).2.1 rfl).1,
   ((C6_outcome_mapping none _ 0 4 true resp404 rfl).2.2.1 rfl).1,
   ((C6_outcome_mapping none _ 0 4 true resp418 rfl).2.2.2 (by decide) (by decide)
     (by decide) (by decide) (by decide) (by decide)).1⟩

theorem sleep_mem_sleep429 (g : Bool) (secs : ℚ) : Ev.sleep secs ∈ sleep429Evs g secs := by
  cases g <;> simp [sleep429Evs]

/-- C7: an attempt answered 500 or 502 sleeps `1 + tries*2` seconds
(`tries` the zero-based attempt index) and, while budget remains, fires
the next attempt; five consecutive 502 responses end with the generic
`HTTPException` carrying the last response's status and body. -/
theorem C7_transient_retry :
    (∀ (hbd : Option ℚ) (raws : Nat → RawResult) (tries fuel : Nat) (unlock : Bool)
      (r : Response),
      raws tries = RawResult.resp r → (r.status = 500 ∨ r.status = 502) →
      Ev.sleep ((1 + tries * 2 : Nat) : ℚ) ∈ (runAttempts hbd raws tries (fuel+1) unlock).2.2 ∧
      (∀ fuel', fuel = fuel' + 1 →
        Ev.attempt (tries+1) (raws (tries+1)) ∈
          (runAttempts hbd raws tries (fuel+1) unlock).2.2)) ∧
    ((HTTPClient.request true "b" none (fun _ => RawResult.resp resp502)).1 =
      Except.error (ReqErr.httpException 502 (Body.text "bad gateway"))) := by
  constructor
  · intro hbd raws tries fuel unlock r h h50x
    rcases fuel with _ | fuel'
    · constructor
      · rw [eq50xlast hbd raws tries unlock r h h50x]
        exact List.mem_cons_of_mem _ (List.mem_append_right _ (List.mem_singleton.mpr rfl))
      · intro fuel' hf
        omega
    · constructor
      · rw [eq50xretry hbd raws tries fuel' unlock r h h50x]
        exact List.mem_cons_of_mem _
          (List.mem_append_left _ (List.mem_append_right _ (List.mem_singleton.mpr rfl)))
      · intro fuel'' hf
        rw [eq50xretry hbd raws tries fuel' unlock r h h50x]
        obtain ⟨rest, hrest⟩ := runAttempts_trace_head hbd raws (tries+1) fuel' (unlockAfter r unlock)
        refine List.mem_cons_of_mem _ (List.mem_append_right _ ?_)
        rw [hrest]
        exact List.mem_cons_self _ _
  · rfl

/-- C7 witness: a first-attempt 502 sleeps one second and fires a second
attempt. -/
theorem C7_transient_retry_witness :
    Ev.sleep ((1 + 0 * 2 : Nat) : ℚ) ∈
      (runAttempts none (fun _ => RawResult.resp resp502) 0 5 true).2.2 ∧
    Ev.attempt 1 (RawResult.resp resp502) ∈
      (runAttempts none (fun _ => RawResult.resp resp502) 0 5 true).2.2 :=
  ⟨(C7_transient_retry.1 none _ 0 4 true resp502 rfl (Or.inr rfl)).1,
   (C7_transient_retry.1 none _ 0 4 true resp502 rfl (Or.inr rfl)).2 3 rfl⟩

/-- C4: an attempt answered 429 with a numeric `retry_after` of `ms`
milliseconds sleeps exactly `ms/1000` seconds and, while budget remains,
fires the next attempt without raising; every attempt of a dispatched
call has index below 5; and a single 429 with `retry_after: 500`
followed by a 200 yields the decoded payload after exactly one sleep of
`500/1000 = 1/2` seconds. -/
theorem C4_retry_after_sleep :
    (∀ (hbd : Option ℚ) (raws : Nat → RawResult) (tries fuel : Nat) (unlock : Bool)
      (r : Response) (ms : Int),
      raws tries = RawResult.resp r → r.status = 429 →
      retryAfterMs (json_or_text r) = some ms →
      Ev.sleep ((ms : ℚ) / 1000) ∈ (runAttempts hbd raws tries (fuel+1) unlock).2.2 ∧
      (∀ fuel', fuel = fuel' + 1 →
        Ev.attempt (tries+1) (raws (tries+1)) ∈
          (runAttempts hbd raws tries (fuel+1) unlock).2.2)) ∧
    (∀ (g : Bool) (b : String) (hbd : Option ℚ) (raws : Nat → RawResult) (j : Nat)
      (x : RawResult),
      Ev.attempt j x ∈ (HTTPClient.request g b hbd raws).2 → j < 5) ∧
    ((HTTPClient.request true "b" none raws429once).1 =
      Except.ok (Body.json (JsonV.obj [("id", JsonV.num 1)])) ∧
     (HTTPClient.request true "b" none raws429once).2.filter isSleepEv =
      [Ev.sleep (((500 : Int) : ℚ) / 1000)] ∧
     (((500 : Int) : ℚ) / 1000) = 1/2) := by
  refine ⟨?_, ?_, ?_, ?_, ?_⟩
  · intro hbd raws tries fuel unlock r ms h h429 hra
    rcases fuel with _ | fuel'
    · constructor
      · rw [eq429last hbd raws tries unlock r ms h h429 hra]
        exact List.mem_cons_of_mem _ (List.mem_append_right _ (sleep_mem_sleep429 _ _))
      · intro fuel' hf
        omega
    · constructor
      · rw [eq429retry hbd raws tries fuel' unlock r ms h h429 hra]
        exact List.mem_cons_of_mem _
          (List.mem_append_left _ (List.mem_append_right _ (sleep_mem_sleep429 _ _)))
      · intro fuel'' hf
        rw [eq429retry hbd raws tries fuel' unlock r ms h h429 hra]
        obtain ⟨rest, hrest⟩ :=
          runAttempts_trace_head hbd raws (tries+1) fuel' (unlockAfter r unlock)
        refine List.mem_cons_of_mem _ (List.mem_append_right _ ?_)
        rw [hrest]
        exact List.mem_cons_self _ _
  · intro g b hbd raws j x hmem
    have h := attempt_mem_request_run g b hbd raws j x hmem
    have := ((runAttempts_props hbd raws 5 0 true).1) j x h
    omega
  · rfl
  · rfl
  · norm_num

theorem qualifies_true_iff (r : Response) :
    qualifies r = true ↔ (r.xRatelimitRemaining = some "0" ∧ r.status ≠ 429) := by
  simp [qualifies]

theorem qualifies_eq_false (r : Response)
    (h : ¬(r.xRatelimitRemaining = some "0" ∧ r.status ≠ 429)) : qualifies r = false := by
  cases hq : qualifies r
  · rfl
  · exact absurd ((qualifies_true_iff r).mp hq) h

/-- C3: whenever an attempt's response carries `X-Ratelimit-Remaining:
'0'` with a status other than 429, the release delay is the
caller-supplied `header_bypass_delay` when given and the parsed
reset-time header otherwise, a deferred release with that delay is
scheduled, and the call's immediate release on exit is suppressed; when
no executed attempt carries such a response, the call's trace ends with
the immediate release. -/
theorem C3_deferred_release :
    (∀ (r : Response) (d : ℚ), deferDelta (some d) r = d) ∧
    (∀ (r : Response), deferDelta none r = parse_ratelimit_header r) ∧
    (∀ (hbd : Option ℚ) (raws : Nat → RawResult) (tries fuel : Nat) (unlock : Bool)
      (r : Response),
      raws tries = RawResult.resp r →
      r.xRatelimitRemaining = some "0" → r.status ≠ 429 →
      Ev.deferRelease (deferDelta hbd r) ∈ (runAttempts hbd raws tries (fuel+1) unlock).2.2) ∧
    (∀ (g : Bool) (b : String) (hbd : Option ℚ) (raws : Nat → RawResult) (i : Nat)
      (r : Response),
      Ev.attempt i (RawResult.resp r) ∈ (HTTPClient.request g b hbd raws).2 →
      r.xRatelimitRemaining = some "0" → r.status ≠ 429 →
      Ev.releaseNow ∉ (HTTPClient.request g b hbd raws).2) ∧
    (∀ (g : Bool) (b : String) (hbd : Option ℚ) (raws : Nat → RawResult),
      (∀ i r, Ev.attempt i (RawResult.resp r) ∈ (HTTPClient.request g b hbd raws).2 →
        ¬(r.xRatelimitRemaining = some "0" ∧ r.status ≠ 429)) →
      (HTTPClient.request g b hbd raws).2.getLast? = some Ev.releaseNow) := by
  refine ⟨fun _ _ => rfl, fun _ => rfl, ?_, ?_, ?_⟩
  · intro hbd raws tries fuel unlock r h hrem hst
    have hq : qualifies r = true := (qualifies_true_iff r).mpr ⟨hrem, hst⟩
    obtain ⟨rest, hrest⟩ := runAttempts_trace_head hbd raws tries fuel unlock
    have hmem : Ev.attempt tries (RawResult.resp r) ∈
        (runAttempts hbd raws tries (fuel+1) unlock).2.2 := by
      rw [hrest, h]
      exact List.mem_cons_self _ _
    exact ((runAttempts_props hbd raws (fuel+1) tries unlock).2.2.1 tries r hmem hq).1
  · intro g b hbd raws i r hmem hrem hst hcon
    have hq : qualifies r = true := (qualifies_true_iff r).mpr ⟨hrem, hst⟩
    have hrun := attempt_mem_request_run g b hbd raws i (RawResult.resp r) hmem
    have hu : (runAttempts hbd raws 0 5 true).2.1 = false :=
      ((runAttempts_props hbd raws 5 0 true).2.2.1 i r hrun hq).2
    simp only [HTTPClient.request, hu] at hcon
    rcases List.mem_append.mp hcon with h1 | h2
    · rcases List.mem_append.mp h1 with hp | hr
      · rcases List.mem_append.mp hp with hpa | hpb
        · cases g <;> simp_all
        · simp at hpb
      · exact releaseNow_not_mem_runAttempts hbd raws 5 0 true hr
    · simp at h2
  · intro g b hbd raws h
    have h' : ∀ i r, Ev.attempt i (RawResult.resp r) ∈ (runAttempts hbd raws 0 5 true).2.2 →
        qualifies r = false := by
      intro i r hm
      exact qualifies_eq_false r (h i r (run_mem_request g b hbd raws _ hm))
    have hu : (runAttempts hbd raws 0 5 true).2.1 = true :=
      (runAttempts_props hbd raws 5 0 true).2.2.2.1 h'
    simp only [HTTPClient.request, hu, if_true]
    rw [List.getLast?_append_cons]
    rfl

/-- C3 witness: the deferral on an exhausted bucket and the immediate
release on a healthy one, at concrete responses. -/
theorem C3_deferred_release_witness :
    deferDelta (some (1/4)) respExhaust = 1/4 ∧
    deferDelta none respExhaust = parse_ratelimit_header respExhaust ∧
    Ev.deferRelease (deferDelta none respExhaust) ∈
      (runAttempts none (fun _ => RawResult.resp respExhaust) 0 5 true).2.2 ∧
    Ev.releaseNow ∉ (HTTPClient.request true "b" none (fun _ => RawResult.resp respExhaust)).2 ∧
    (HTTPClient.request true "b" none (fun _ => RawResult.resp respOkJson)).2.getLast? =
      some Ev.releaseNow := by
  have hm : Ev.attempt 0 (RawResult.resp respExhaust) ∈
      (HTTPClient.request true "b" none (fun _ => RawResult.resp respExhaust)).2 := by
    refine run_mem_request true "b" none _ _ ?_
    obtain ⟨rest, hrest⟩ :=
      runAttempts_trace_head none (fun _ => RawResult.resp respExhaust) 0 4 true
    rw [hrest]
    exact List.mem_cons_self _ _
  refine ⟨C3_deferred_release.1 respExhaust (1/4),
          C3_deferred_release.2.1 respExhaust,
          C3_deferred_release.2.2.1 none _ 0 4 true respExhaust rfl rfl (by decide),
          C3_deferred_release.2.2.2.1 true "b" none _ 0 respExhaust hm rfl (by decide),
          C3_deferred_release.2.2.2.2 true "b" none _ ?_⟩
  intro i r hmem
  have hx := (runAttempts_props none (fun _ => RawResult.resp respOkJson) 5 0 true).2.2.2.2
    i (RawResult.resp r) (attempt_mem_request_run true "b" none _ i _ hmem)
  have hr : r = respOkJson := by
    injection hx
  subst hr
  intro hcon
  exact absurd hcon.1 (by decide)

/-- C4 witness: the 429-then-200 oracle evaluated. -/
theorem C4_retry_after_sleep_witness :
    Ev.sleep (((500 : Int) : ℚ) / 1000) ∈ (runAttempts none raws429once 0 5 true).2.2 ∧
    Ev.attempt 1 (raws429once 1) ∈ (runAttempts none raws429once 0 5 true).2.2 ∧
    (0 : Nat) < 5 := by
  refine ⟨(C4_retry_after_sleep.1 none raws429once 0 4 true resp429half 500 rfl rfl rfl).1,
          (C4_retry_after_sleep.1 none raws429once 0 4 true resp429half 500 rfl rfl rfl).2 3 rfl,
          C4_retry_after_sleep.2.1 true "b" none raws429once 0 (RawResult.resp resp429half) ?_⟩
  refine run_mem_request true "b" none _ _ ?_
  obtain ⟨rest, hrest⟩ := runAttempts_trace_head none raws429once 0 4 true
  rw [hrest]
  exact List.mem_cons_self _ _

/-- C5: a global 429 clears the throttle event, sleeps, and sets it
again, contiguously in that order; every call's trace waits on the
global event (when it is unset) strictly before acquiring its bucket
lock; and in the concurrent semantics a task ahead of the global gate
cannot move while the event is cleared, and may pass as soon as it is
set. -/
theorem C5_global_throttle :
    (∀ (hbd : Option ℚ) (raws : Nat → RawResult) (tries fuel : Nat) (unlock : Bool)
      (r : Response) (ms : Int),
      raws tries = RawResult.resp r → r.status = 429 →
      retryAfterMs (json_or_text r) = some ms → isGlobalBody (json_or_text r) = true →
      List.IsInfix [Ev.clearGlobal, Ev.sleep ((ms : ℚ) / 1000), Ev.setGlobal]
        (runAttempts hbd raws tries (fuel+1) unlock).2.2) ∧
    (∀ (g : Bool) (b : String) (hbd : Option ℚ) (raws : Nat → RawResult),
      ∃ rest, (HTTPClient.request g b hbd raws).2 =
        (if g then [] else [Ev.waitGlobal]) ++ Ev.acquire b :: rest) ∧
    (∀ (d : Bool) (s s' : Sys) (i : Nat), Step d s s' → s.globalOver = false →
      s.phase i = Phase.waitingGlobal → s'.phase i = Phase.waitingGlobal) ∧
    (∀ (d : Bool) (s : Sys) (i : Nat), s.phase i = Phase.waitingGlobal → s.globalOver = true →
      Step d s { s with phase := setP s.phase i Phase.waitingLock }) := by
  refine ⟨?_, ?_, ?_, ?_⟩
  · intro hbd raws tries fuel unlock r ms h h429 hra hg
    rcases fuel with _ | fuel'
    · refine ⟨Ev.attempt tries (RawResult.resp r) :: deferEvs hbd r, [], ?_⟩
      rw [eq429last hbd raws tries unlock r ms h h429 hra]
      simp [sleep429Evs, hg]
    · refine ⟨Ev.attempt tries (RawResult.resp r) :: deferEvs hbd r,
        (runAttempts hbd raws (tries+1) (fuel'+1) (unlockAfter r unlock)).2.2, ?_⟩
      rw [eq429retry hbd raws tries fuel' unlock r ms h h429 hra]
      simp [sleep429Evs, hg]
  · intro g b hbd raws
    refine ⟨(runAttempts hbd raws 0 5 true).2.2 ++
      (if (runAttempts hbd raws 0 5 true).2.1 then [Ev.releaseNow] else []), ?_⟩
    simp [HTTPClient.request, List.append_assoc]
  · intro d s s' i hstep hflag hwg
    cases hstep with
    | passGlobal k hp hg =>
      rw [hflag] at hg
      cases hg
    | acquire k hp hh =>
      dsimp only
      by_cases hik : i = k
      · subst hik
        rw [hwg] at hp
        cases hp
      · rw [setP_ne _ _ _ _ hik]
        exact hwg
    | finishRelease k t ht =>
      dsimp only
      by_cases hik : i = k
      · subst hik
        rw [hwg] at ht
        cases ht
      · rw [setP_ne _ _ _ _ hik]
        exact hwg
    | finishDeferred k t dfr ht =>
      dsimp only
      by_cases hik : i = k
      · subst hik
        rw [hwg] at ht
        cases ht
      · rw [setP_ne _ _ _ _ hik]
        exact hwg
    | finishNoRelease k t ht =>
      dsimp only
      by_cases hik : i = k
      · subst hik
        rw [hwg] at ht
        cases ht
      · rw [setP_ne _ _ _ _ hik]
        exact hwg
    | retryStep k t dfr ht hlt =>
      dsimp only
      by_cases hik : i = k
      · subst hik
        rw [hwg] at ht
        cases ht
      · rw [setP_ne _ _ _ _ hik]
        exact hwg
    | retryDefer k t dfr hd ht hlt =>
      dsimp only
      by_cases hik : i = k
      · subst hik
        rw [hwg] at ht
        cases ht
      · rw [setP_ne _ _ _ _ hik]
        exact hwg
    | timerFire b hb =>
      exact hwg
    | globalClear k t dfr ht =>
      exact hwg
    | globalSet k t dfr ht =>
      exact hwg
  · intro d s i hp hg
    exact Step.passGlobal s i hp hg

/-- C5 witness: the clear-sleep-set pattern on a concrete global 429,
the wait-then-acquire trace shape, a gated task staying put across a
step taken while the event is cleared, and the gate-passing step once it
is set. -/
theorem C5_global_throttle_witness :
    List.IsInfix [Ev.clearGlobal, Ev.sleep (((1000 : Int) : ℚ) / 1000), Ev.setGlobal]
      (runAttempts none (fun i => if i = 0 then RawResult.resp resp429global
        else RawResult.resp respOkJson) 0 5 true).2.2 ∧
    (∃ rest, (HTTPClient.request false "b" none (fun _ => RawResult.resp respOkJson)).2 =
      (if false then [] else [Ev.waitGlobal]) ++ Ev.acquire "b" :: rest) ∧
    ({ sysGlobalWait with globalOver := true } : Sys).phase 1 = Phase.waitingGlobal ∧
    Step false (Sys.init (fun _ => "b") true)
      { Sys.init (fun _ => "b") true with
        phase := setP (Sys.init (fun _ => "b") true).phase 0 Phase.waitingLock } :=
  ⟨C5_global_throttle.1 none _ 0 4 true resp429global 1000 rfl rfl rfl rfl,
   C5_global_throttle.2.1 false "b" none _,
   C5_global_throttle.2.2.1 false sysGlobalWait _ 1
     (Step.globalSet sysGlobalWait 0 0 false rfl) rfl rfl,
   C5_global_throttle.2.2.2 false (Sys.init (fun _ => "b") true) 0 rfl rfl⟩

/-- C9 (counterexample): a first-attempt connection failure makes
`request` end with the transport library's exception passing through
unwrapped — not one of the typed error kinds the module raises (there is
no `NetworkError` wrapper in its imports), so the caller does receive
the raw transport exception. -/
theorem C9_counterexample :
    (HTTPClient.request true "b" none (fun _ => RawResult.netFail)).1 =
      Except.error ReqErr.transport ∧
    ReqErr.isHTTPException ReqErr.transport = false :=
  ⟨rfl, rfl⟩

/-- C9 (amended): a network-level failure during an attempt is not
retried — the attempt loop ends at once with that attempt alone in its
trace — and propagates to the caller as the unwrapped transport
exception. -/
theorem C9_transport_passthrough :
    (∀ (hbd : Option ℚ) (raws : Nat → RawResult) (tries fuel : Nat) (unlock : Bool),
      raws tries = RawResult.netFail →
      runAttempts hbd raws tries (fuel+1) unlock =
        (Except.error ReqErr.transport, unlock, [Ev.attempt tries RawResult.netFail])) ∧
    (∀ (g : Bool) (b : String) (hbd : Option ℚ) (raws : Nat → RawResult),
      raws 0 = RawResult.netFail →
      (HTTPClient.request g b hbd raws).1 = Except.error ReqErr.transport ∧
      ∀ j x, Ev.attempt j x ∈ (HTTPClient.request g b hbd raws).2 → j = 0) := by
  constructor
  · intro hbd raws tries fuel unlock h
    exact eqNetFail hbd raws tries fuel unlock h
  · intro g b hbd raws h
    constructor
    · show (runAttempts hbd raws 0 5 true).1 = _
      rw [eqNetFail hbd raws 0 4 true h]
    · intro j x hmem
      have hrun := attempt_mem_request_run g b hbd raws j x hmem
      rw [eqNetFail hbd raws 0 4 true h] at hrun
      rcases List.mem_cons.mp hrun with he | hm
      · simp only [Ev.attempt.injEq] at he
        exact he.1
      · cases hm

/-- C9 witness: the pass-through evaluated on an always-failing
transport. -/
theorem C9_transport_passthrough_witness :
    runAttempts none (fun _ => RawResult.netFail) 0 5 true =
      (Except.error ReqErr.transport, true, [Ev.attempt 0 RawResult.netFail]) ∧
    (HTTPClient.request true "b" none (fun _ => RawResult.netFail)).1 =
      Except.error ReqErr.transport :=
  ⟨C9_transport_passthrough.1 none _ 0 4 true rfl,
   (C9_transport_passthrough.2 true "b" none _ rfl).1⟩

/-- C10: the referer header is the channel-derived URL exactly when the
route's channel carries a guild, and the `@me` fallback in every other
case; the middle branch can never produce a header because its unbound
`guild` name raises `NameError`, so a route carrying only a `guild_id`
(no channel object) still gets the `@me` referer. -/
theorem C10_referer_header :
    (∀ (c : Channel) (g : Guild), c.guild = some g →
      referer (some c) = refererChannelUrl g.id c.id) ∧
    (∀ (c : Channel), c.guild = none → referer (some c) = refererFallback) ∧
    referer none = refererFallback ∧
    refererBranch2 = none := by
  refine ⟨?_, ?_, rfl, rfl⟩
  · intro c g hg
    simp [referer, refererBranch1, hg]
  · intro c hg
    simp [referer, refererBranch1, refererBranch2, hg]

/-- C10 witness: the referer on a channel with and without a guild. -/
theorem C10_referer_header_witness :
    referer (some ⟨5, some ⟨7⟩⟩) = refererChannelUrl 7 5 ∧
    referer (some ⟨5, none⟩) = refererFallback :=
  ⟨C10_referer_header.1 ⟨5, some ⟨7⟩⟩ ⟨7⟩ rfl, C10_referer_header.2.1 ⟨5, none⟩ rfl⟩

/-- C8 (counterexample): when the login-check request fails with a
transport error — which `except HTTPException` does not catch — the
handler never runs, so the freshly installed credential is NOT restored
and the raw error propagates. -/
theorem C8_counterexample :
    (HTTPClient.static_login ⟨some "old", true⟩ "new" true true
      (fun _ => RawResult.netFail)).2 = ⟨some "new", true⟩ ∧
    ((⟨some "new", true⟩ : ClientState) ≠ ⟨some "old", true⟩) ∧
    (HTTPClient.static_login ⟨some "old", true⟩ "new" true true
      (fun _ => RawResult.netFail)).1 = LoginResult.reraised ReqErr.transport :=
  ⟨rfl, by decide, rfl⟩

/-- C8 (amended): `static_login` installs the new credential and issues
`GET /users/@me`.  On success the new credential stays and the payload
is returned; a failure carrying one of the module's `HTTPException`
kinds restores the original credential state and becomes `LoginFailure`
exactly when its status is 401 (otherwise it is re-raised); a failure
that is not an `HTTPException` — a transport error — propagates with the
new credential left in place. -/
theorem C8_static_login :
    ∀ (st : ClientState) (token : String) (bot g : Bool) (raws : Nat → RawResult),
      (∀ data, (HTTPClient.request g
          (Route.make "GET" "/users/@me" none none none []).bucket none raws).1 =
          Except.ok data →
        HTTPClient.static_login st token bot g raws =
          (LoginResult.ok data, { token := some token, bot_token := bot })) ∧
      (∀ e, (HTTPClient.request g
          (Route.make "GET" "/users/@me" none none none []).bucket none raws).1 =
          Except.error e →
        e.isHTTPException = true → e.statusOf = some 401 →
        HTTPClient.static_login st token bot g raws = (LoginResult.loginFailure, st)) ∧
      (∀ e, (HTTPClient.request g
          (Route.make "GET" "/users/@me" none none none []).bucket none raws).1 =
          Except.error e →
        e.isHTTPException = true → e.statusOf ≠ some 401 →
        HTTPClient.static_login st token bot g raws = (LoginResult.reraised e, st)) ∧
      (∀ e, (HTTPClient.request g
          (Route.make "GET" "/users/@me" none none none []).bucket none raws).1 =
          Except.error e →
        e.isHTTPException = false →
        HTTPClient.static_login st token bot g raws =
          (LoginResult.reraised e, { token := some token, bot_token := bot })) := by
  intro st token bot g raws
  refine ⟨?_, ?_, ?_, ?_⟩
  · intro data h
    simp [HTTPClient.static_login, HTTPClient._token, h]
  · intro e h hhttp h401
    simp [HTTPClient.static_login, HTTPClient._token, h, hhttp, h401]
  · intro e h hhttp h401
    simp [HTTPClient.static_login, HTTPClient._token, h, hhttp, h401]
  · intro e h hhttp
    simp [HTTPClient.static_login, HTTPClient._token, h, hhttp]

/-- C8 witness: a 401 login check raises `LoginFailure` with the old
credential restored; a successful one keeps the new credential and
returns the payload. -/
theorem C8_static_login_witness :
    HTTPClient.static_login ⟨some "old", false⟩ "new" true true
      (fun _ => RawResult.resp resp401) = (LoginResult.loginFailure, ⟨some "old", false⟩) ∧
    HTTPClient.static_login ⟨some "old", false⟩ "new" true true
      (fun _ => RawResult.resp respOkJson) =
      (LoginResult.ok (Body.json (JsonV.obj [("id", JsonV.num 1)])), ⟨some "new", true⟩) :=
  ⟨(C8_static_login ⟨some "old", false⟩ "new" true true _).2.1
     (ReqErr.httpException 401 (Body.json (JsonV.obj [("code", JsonV.num 0)]))) rfl rfl rfl,
   (C8_static_login ⟨some "old", false⟩ "new" true true _).1
     (Body.json (JsonV.obj [("id", JsonV.num 1)])) rfl⟩

/-- C2 (counterexample): with the deferred-release-while-retrying
behaviour present (a response carrying `X-Ratelimit-Remaining: 0` on a
502), the scheduled release can fire during the same call's remaining
retries, another request acquires the lock, and two attempts for the
same bucket are in flight at once. -/
theorem C2_counterexample :
    Reach true sysA sysG ∧ InFlight sysG 0 ∧ InFlight sysG 1 ∧
    sysG.bucketOf 0 = sysG.bucketOf 1 ∧ (0 : Nat) ≠ 1 := by
  refine ⟨?_, ⟨1, true, rfl⟩, ⟨0, false, rfl⟩, rfl, by decide⟩
  exact Reach.tail
    (Reach.tail
      (Reach.tail
        (Reach.tail
          (Reach.tail
            (Reach.tail Reach.refl
              (Step.passGlobal sysA 0 rfl rfl))
            (Step.passGlobal sysB 1 rfl rfl))
          (Step.acquire sysC 0 rfl rfl))
        (Step.retryDefer sysD 0 0 false rfl rfl (by omega)))
      (Step.timerFire sysE "b" (List.mem_cons_self _ _)))
    (Step.acquire sysF 1 rfl rfl)

/-- C2 (amended): in every reachable state of the system WITHOUT the
defer-while-retrying behaviour, at most one attempt per bucket key is in
flight at any instant; and a request waiting on a bucket lock is blocked
only by that bucket's own holder — whenever its own bucket's lock is
free, its acquisition step is enabled no matter what other buckets'
locks hold. -/
theorem C2_serialization :
    (∀ (bucketOf : Nat → String) (g : Bool) (s : Sys),
      Reach false (Sys.init bucketOf g) s →
      ∀ i j, InFlight s i → InFlight s j → s.bucketOf i = s.bucketOf j → i = j) ∧
    (∀ (d : Bool) (s : Sys) (i : Nat), s.phase i = Phase.waitingLock →
      s.holder (s.bucketOf i) = none →
      Step d s { s with phase := setP s.phase i (Phase.running 0 false),
                        holder := setH s.holder (s.bucketOf i) (some i) }) := by
  constructor
  · intro bucketOf g s hreach i j hi hj hb
    obtain ⟨ti, di, hpi⟩ := hi
    obtain ⟨tj, dj, hpj⟩ := hj
    have hinv := LockInv_reach hreach
    have h1 := hinv.1 i ti di hpi
    have h2 := hinv.1 j tj dj hpj
    rw [hb, h2] at h1
    injection h1 with h1
    exact h1.symm
  · intro d s i hp hh
    exact Step.acquire s i hp hh

/-- C2 witness: the invariant evaluated on a concrete reachable state
with one running task, and the enabled acquisition step of a waiting
task whose bucket is free. -/
theorem C2_serialization_witness :
    (0 : Nat) = 0 ∧ Step false sysC sysD :=
  ⟨C2_serialization.1 (fun _ => "b") true sysD
    (Reach.tail
      (Reach.tail
        (Reach.tail Reach.refl (Step.passGlobal sysA 0 rfl rfl))
        (Step.passGlobal sysB 1 rfl rfl))
      (Step.acquire sysC 0 rfl rfl))
    0 0 ⟨0, false, rfl⟩ ⟨0, false, rfl⟩ rfl,
   C2_serialization.2 false sysC 0 rfl rfl⟩
